import Mathlib

/-
Verification of the checklist-driven parallel agent orchestrator
(scripts/checklist-processor.js).

The JavaScript source is shallowly embedded: each JS function that the
claims depend on is translated into an executable Lean definition over
String / List Char, with JS string primitives (split, trim, includes,
replace-first, the regex patterns actually used) modelled explicitly.
Stateful parts (filesystem, subprocess results) are modelled by explicit
state passing: the world is a record of file contents, and external agent
subprocesses are an oracle parameter mapping a label and attempt index to
the observed (freezeTriggered, exitCode, capturedOutput) triple.
-/

namespace CP

/-! JS string primitives, modelled over List Char. -/

/-- Split a character list on a single separator character.
Mirrors JS String.prototype.split with a one-character separator:
always returns a non-empty list of (possibly empty) fragments. -/
def splitCh (c : Char) : List Char → List (List Char)
  | [] => [[]]
  | x :: xs =>
    match splitCh c xs with
    | [] => [[]]
    | h :: t => if x = c then [] :: h :: t else (x :: h) :: t

/-- Join fragments with a single separator character (JS Array.prototype.join). -/
def joinCh (c : Char) : List (List Char) → List Char
  | [] => []
  | [x] => x
  | x :: y :: rest => x ++ c :: joinCh c (y :: rest)

/-- JS String.prototype.split with a one-character separator, on String. -/
def jsSplit1 (c : Char) (s : String) : List String :=
  (splitCh c s.data).map String.mk

/-- JS Array.prototype.join with a one-character separator, on String. -/
def jsJoin1 (c : Char) (parts : List String) : String :=
  String.mk (joinCh c (parts.map String.data))

/-- Strip leading and trailing whitespace from a character list. -/
def trimChars (l : List Char) : List Char :=
  ((l.dropWhile Char.isWhitespace).reverse.dropWhile Char.isWhitespace).reverse

/-- JS String.prototype.trim (the inputs at stake only use ASCII whitespace). -/
def jsTrim (s : String) : String :=
  String.mk (trimChars s.data)

/-- JS String.prototype.trimStart. -/
def jsTrimStart (s : String) : String :=
  String.mk (s.data.dropWhile Char.isWhitespace)

/-- JS String.prototype.startsWith. -/
def jsStartsWith (s pre : String) : Bool :=
  pre.data.isPrefixOf s.data

/-- Does pat occur as a contiguous sublist of the list? -/
def hasSub (pat : List Char) : List Char → Bool
  | [] => pat.isEmpty
  | x :: xs => pat.isPrefixOf (x :: xs) || hasSub pat xs

/-- JS String.prototype.includes. -/
def jsIncludes (s pat : String) : Bool :=
  hasSub pat.data s.data

/-- Index of the first occurrence of pat, if any (JS String.prototype.indexOf). -/
def firstIdx (pat : List Char) : List Char → Option Nat
  | [] => if pat.isEmpty then some 0 else none
  | x :: xs =>
    if pat.isPrefixOf (x :: xs) then some 0
    else (firstIdx pat xs).map (· + 1)

/-- Replace the first occurrence of pat by repl (JS String.prototype.replace
with a plain-string pattern replaces only the first occurrence). -/
def replaceFirstChars (l pat repl : List Char) : List Char :=
  match firstIdx pat l with
  | some i => l.take i ++ repl ++ l.drop (i + pat.length)
  | none => l

/-- JS String.prototype.replace with a plain-string pattern. -/
def jsReplaceFirst (s pat repl : String) : String :=
  String.mk (replaceFirstChars s.data pat.data repl.data)

/-- ASCII lowercasing, as applied by the case-insensitive regex flags. -/
def lowerChars (l : List Char) : List Char :=
  l.map Char.toLower

/-- Drop the given word off the front of a list, if it is a prefix. -/
def dropPfx : List Char → List Char → Option (List Char)
  | [], l => some l
  | _, [] => none
  | p :: ps, x :: xs => if x = p then dropPfx ps xs else none

/-! The failure-classification patterns of checklist-processor.js
(RATE_LIMIT_PATTERNS and PERMISSION_ERROR_PATTERNS).  All of them are
case-insensitive literal substrings except /http\s*429/i, which allows
whitespace between "http" and "429". -/

/-- Does the (already lowercased) text match /http\s*429/i at some position? -/
def hasHttp429 : List Char → Bool
  | [] => false
  | x :: xs =>
    (match dropPfx "http".data (x :: xs) with
     | some rest => "429".data.isPrefixOf (rest.dropWhile Char.isWhitespace)
     | none => false)
    || hasHttp429 xs

/-- isRateLimitMessage: any RATE_LIMIT_PATTERNS regex matches the text. -/
def isRateLimitMessage (text : String) : Bool :=
  if text = "" then false
  else
    let low := lowerChars text.data
    hasSub "rate limit".data low ||
    hasSub "plan limit".data low ||
    hasSub "quota".data low ||
    hasSub "too many requests".data low ||
    hasHttp429 low ||
    hasSub "billing hard limit".data low ||
    hasSub "temporarily unavailable due to usage".data low

/-- isPermissionMessage: any PERMISSION_ERROR_PATTERNS regex matches the text. -/
def isPermissionMessage (text : String) : Bool :=
  if text = "" then false
  else
    let low := lowerChars text.data
    hasSub "permission denied".data low ||
    hasSub "access is denied".data low ||
    hasSub "access denied".data low ||
    hasSub "eacces".data low ||
    hasSub "eperm".data low ||
    hasSub "insufficient permissions".data low ||
    hasSub "operation not permitted".data low

/-! Terminal classification of one agent attempt (the close handler of
executeAgentAttempt). -/

/-- The retry reason attached by withRetryMetadata. -/
inductive Reason
  | rateLimit
  | permission
  | freeze
deriving DecidableEq, Repr

/-- Result of one executeAgentAttempt: resolve with the captured output, or
reject with an error that carries an optional retry reason (none models a
plain Error without retryMetadata). -/
inductive AgentOutcome
  | ok (output : String)
  | err (reason : Option Reason)
deriving DecidableEq, Repr

/-- The close-handler of executeAgentAttempt: classify the terminal state of
the subprocess from the freeze flag, the exit code and the captured combined
output. -/
def executeAgentAttempt (freezeTriggered : Bool) (exitCode : Int) (output : String) :
    AgentOutcome :=
  if freezeTriggered then .err (some .freeze)
  else if exitCode ≠ 0 then
    if isRateLimitMessage output then .err (some .rateLimit)
    else if isPermissionMessage output then .err (some .permission)
    else .err none
  else if isRateLimitMessage output then .err (some .rateLimit)
  else if isPermissionMessage output then .err (some .permission)
  else .ok output

/-- The AgentSessionResult outcome enum of the spec. -/
inductive Outcome
  | success
  | rateLimited
  | permissionDenied
  | frozen
  | otherFailure
deriving DecidableEq, Repr

/-- Reading of an attempt result as the spec's outcome enum. -/
def classifyAttempt (freezeTriggered : Bool) (exitCode : Int) (output : String) :
    Outcome :=
  match executeAgentAttempt freezeTriggered exitCode output with
  | .ok _ => .success
  | .err (some .rateLimit) => .rateLimited
  | .err (some .permission) => .permissionDenied
  | .err (some .freeze) => .frozen
  | .err none => .otherFailure

/-! The retry loop of runAgentWithPrompt.  The external agent subprocess is
abstracted as a function from the attempt number (1-based) to the attempt's
terminal result. -/

/-- Backoff before the next attempt after a retryable failure: a rate limit
waits the minutes-scale cooldown (falling back to the retry delay when the
cooldown is zero); permission and freeze failures wait the retry delay. -/
def backoffMsFor (reason : Reason) (rateLimitWaitMs retryDelayMs : Nat) : Nat :=
  match reason with
  | .rateLimit => if rateLimitWaitMs ≠ 0 then rateLimitWaitMs else retryDelayMs
  | .permission => retryDelayMs
  | .freeze => retryDelayMs

/-- The while-loop of runAgentWithPrompt: idx is the number of the next
attempt, the second argument the number of attempts still allowed
(maxAttempts - attempts already used).  Returns the final result together
with the number of subprocess invocations performed.  A failure without
retry metadata, or a retryable failure on the last allowed attempt, is
re-thrown; the base case models the trailing throw after the loop. -/
def runAgentAux (attempts : Nat → AgentOutcome) (idx : Nat) : Nat → AgentOutcome × Nat
  | 0 => (.err none, 0)
  | r + 1 =>
    match attempts idx with
    | .ok out => (.ok out, 1)
    | .err none => (.err none, 1)
    | .err (some reason) =>
      if r = 0 then (.err (some reason), 1)
      else
        let rest := runAgentAux attempts (idx + 1) r
        (rest.1, rest.2 + 1)

/-- runAgentWithPrompt: run attempts up to maxAttempts (clamped to at least 1,
mirroring Math.max(1, options.maxAttempts or agentMaxRetries)). -/
def runAgentWithPrompt (attempts : Nat → AgentOutcome) (maxAttempts : Nat) :
    AgentOutcome × Nat :=
  runAgentAux attempts 1 (max 1 maxAttempts)

/-! The checklist data model, the Markdown table parser (parseChecklist), the
row formatter (formatChecklistRow) and the remaining-item filter. -/

/-- One checklist row plus its inherited tier and subsection context.
The JS field named section is called sectionName here (Lean keyword). -/
structure ChecklistItem where
  id : String
  target : String
  priority : String
  risk : String
  status : String
  tier : String
  sectionName : String
deriving DecidableEq, Repr

/-- Parse one trimmed table-row line in table mode: split on the pipe
delimiter, trim each cell, drop empty cells; a row with fewer than five
remaining cells is discarded as malformed, and a row whose first cell is the
header label or the separator pattern is skipped. -/
def parseTableRow (trimmed tier sectionName : String) : List ChecklistItem :=
  let cols := ((jsSplit1 '|' trimmed).map jsTrim).filter (fun s => s ≠ "")
  if 5 ≤ cols.length then
    let id := cols.getD 0 ""
    if id = "ID" ∨ id = "----" then []
    else [{ id := id
            target := cols.getD 1 ""
            priority := cols.getD 2 ""
            risk := cols.getD 3 ""
            status := cols.getD 4 ""
            tier := tier
            sectionName := sectionName }]
  else []

/-- The line loop of parseChecklist: tier headings set the tier context and
reset the subsection, subsection headings set the subsection, a table header
line (containing both the ID and the Target column label) opens table mode,
and table mode ends at the first non-empty line without a pipe. -/
def parseLinesAux : List String → String → String → Bool → List ChecklistItem
  | [], _, _, _ => []
  | line :: rest, tier, sectionName, inTable =>
    if jsStartsWith line "## Tier " then
      parseLinesAux rest (jsTrim (jsReplaceFirst line "## " "")) "" inTable
    else if jsStartsWith line "### " then
      parseLinesAux rest tier (jsReplaceFirst line "### " "") inTable
    else if jsIncludes line "| ID |" && jsIncludes line "| Target |" then
      parseLinesAux rest tier sectionName true
    else
      let trimmed := jsTrim line
      let rowItems :=
        if inTable && jsStartsWith trimmed "|" then
          parseTableRow trimmed tier sectionName
        else []
      let inTable2 :=
        if inTable && trimmed ≠ "" && !(jsIncludes trimmed "|") then false
        else inTable
      rowItems ++ parseLinesAux rest tier sectionName inTable2

/-- parseChecklist on the checklist document content. -/
def parseChecklist (content : String) : List ChecklistItem :=
  parseLinesAux (jsSplit1 '\n' content) "" "" false

/-- getRemainingChecklistItems: items whose status does not contain the
completion glyph. -/
def getRemainingChecklistItems (items : List ChecklistItem) : List ChecklistItem :=
  items.filter (fun item => !(jsIncludes item.status "✅"))

/-- formatChecklistRow: the canonical five-column row, with the default
not-started marker when the status is empty. -/
def formatChecklistRow (item : ChecklistItem) : String :=
  let status := if item.status = "" then "☐ Not Started" else item.status
  "| " ++ item.id ++ " | " ++ item.target ++ " | " ++ item.priority ++ " | "
    ++ item.risk ++ " | " ++ status ++ " |"

/-- The column header line used by the checklist tables. -/
def checklistTableHeader : String := "| ID | Target | Priority | Risk | Status |"

/-- The divider line used by the checklist tables. -/
def checklistTableDivider : String := "|----|--------|----------|------|--------|"

/-- A table cell that the parse side leaves untouched: non-empty, already
trimmed, and free of the pipe delimiter and of newlines. -/
def goodCell (s : String) : Prop :=
  s.data ≠ [] ∧ trimChars s.data = s.data ∧ '|' ∉ s.data ∧ '\n' ∉ s.data

instance (s : String) : Decidable (goodCell s) := by
  unfold goodCell
  infer_instance

/-! updateChecklistItemStatus: rewrite the status cell of matching rows. -/

/-- The per-line map of updateChecklistItemStatus: a line whose trimmed form
starts with a pipe and contains the space-padded item id as a substring has
its sixth pipe-separated part (index 5, the status cell of a canonical row)
replaced by the padded new status, provided the line splits into at least six
parts; every other line is returned unchanged. -/
def updateChecklistLine (itemId newStatus line : String) : String :=
  if jsStartsWith (jsTrim line) "|" && jsIncludes (jsTrim line) (" " ++ itemId ++ " ") then
    if 6 ≤ (jsSplit1 '|' line).length then
      jsJoin1 '|' ((jsSplit1 '|' line).set 5 (" " ++ newStatus ++ " "))
    else line
  else line

/-- updateChecklistItemStatus as a pure function on the document content:
split into lines, map the per-line update, join back. -/
def updateChecklistItemStatus (content itemId newStatus : String) : String :=
  jsJoin1 '\n' ((jsSplit1 '\n' content).map (updateChecklistLine itemId newStatus))

/-! A JSON parser modelling the strict grammar accepted by JSON.parse,
needed by extractJsonPayload and coerceGeneratedItems. -/

/-- The opening curly brace character. -/
def lbrace : Char := Char.ofNat 123

/-- The closing curly brace character. -/
def rbrace : Char := Char.ofNat 125

/-- A parsed JSON value.  Numbers keep their source lexeme. -/
inductive JsonValue
  | jnull
  | jbool (b : Bool)
  | jnum (lexeme : String)
  | jstr (s : String)
  | jarr (items : List JsonValue)
  | jobj (fields : List (String × JsonValue))

/-- JSON insignificant whitespace. -/
def jskipWs (l : List Char) : List Char :=
  l.dropWhile (fun c => c = ' ' ∨ c = '\t' ∨ c = '\n' ∨ c = '\x0d')

/-- Hexadecimal digit value. -/
def hexVal (c : Char) : Option Nat :=
  if '0' ≤ c ∧ c ≤ '9' then some (c.toNat - '0'.toNat)
  else if 'a' ≤ c ∧ c ≤ 'f' then some (c.toNat - 'a'.toNat + 10)
  else if 'A' ≤ c ∧ c ≤ 'F' then some (c.toNat - 'A'.toNat + 10)
  else none

/-- Parse the body of a JSON string (after the opening quote), decoding
escapes; returns the decoded characters and the remainder after the closing
quote. -/
def jparseStringAux : List Char → List Char → Option (List Char × List Char)
  | _, [] => none
  | acc, c :: rest =>
    if c = '"' then some (acc.reverse, rest)
    else if c = '\\' then
      match rest with
      | [] => none
      | e :: r2 =>
        if e = '"' then jparseStringAux ('"' :: acc) r2
        else if e = '\\' then jparseStringAux ('\\' :: acc) r2
        else if e = '/' then jparseStringAux ('/' :: acc) r2
        else if e = 'b' then jparseStringAux ('\x08' :: acc) r2
        else if e = 'f' then jparseStringAux ('\x0c' :: acc) r2
        else if e = 'n' then jparseStringAux ('\n' :: acc) r2
        else if e = 'r' then jparseStringAux ('\x0d' :: acc) r2
        else if e = 't' then jparseStringAux ('\t' :: acc) r2
        else if e = 'u' then
          match r2 with
          | h1 :: h2 :: h3 :: h4 :: r3 =>
            match hexVal h1, hexVal h2, hexVal h3, hexVal h4 with
            | some a, some b, some c2, some d =>
              jparseStringAux (Char.ofNat (((a * 16 + b) * 16 + c2) * 16 + d) :: acc) r3
            | _, _, _, _ => none
          | _ => none
        else none
    else if c.toNat < 32 then none
    else jparseStringAux (c :: acc) rest

/-- Parse a JSON string literal body starting after the opening quote. -/
def jparseString (l : List Char) : Option (String × List Char) :=
  (jparseStringAux [] l).map (fun r => (String.mk r.1, r.2))

/-- Parse the optional fraction part of a number, extending the lexeme. -/
def jparseNumFrac (lex l : List Char) : Option (List Char × List Char) :=
  match l with
  | '.' :: r =>
    let ds := r.takeWhile Char.isDigit
    if ds = [] then none else some (lex ++ '.' :: ds, r.drop ds.length)
  | _ => some (lex, l)

/-- Parse the optional exponent part of a number, extending the lexeme. -/
def jparseNumExp (lex l : List Char) : Option (List Char × List Char) :=
  match l with
  | c :: r =>
    if c = 'e' ∨ c = 'E' then
      let (sg, r2) : List Char × List Char :=
        match r with
        | s :: r3 => if s = '+' ∨ s = '-' then ([s], r3) else ([], r)
        | [] => ([], r)
      let ds := r2.takeWhile Char.isDigit
      if ds = [] then none else some (lex ++ c :: (sg ++ ds), r2.drop ds.length)
    else some (lex, l)
  | [] => some (lex, l)

/-- Parse a JSON number (strict grammar: no leading zeros, mandatory digits
around the dot and after the exponent). -/
def jparseNumber (l : List Char) : Option (JsonValue × List Char) :=
  let (sign, l1) : List Char × List Char :=
    match l with
    | c :: r => if c = '-' then (['-'], r) else ([], l)
    | [] => ([], l)
  match l1 with
  | [] => none
  | c :: r =>
    if c = '0' then
      match jparseNumFrac (sign ++ ['0']) r with
      | none => none
      | some (lex2, r2) =>
        match jparseNumExp lex2 r2 with
        | none => none
        | some (lex3, r3) => some (.jnum (String.mk lex3), r3)
    else if c.isDigit then
      let ds := r.takeWhile Char.isDigit
      match jparseNumFrac (sign ++ c :: ds) (r.drop ds.length) with
      | none => none
      | some (lex2, r2) =>
        match jparseNumExp lex2 r2 with
        | none => none
        | some (lex3, r3) => some (.jnum (String.mk lex3), r3)
    else none

mutual

/-- Parse one JSON value (fuel-bounded recursive descent). -/
def jparseValue : Nat → List Char → Option (JsonValue × List Char)
  | 0, _ => none
  | fuel + 1, l =>
    match jskipWs l with
    | [] => none
    | c :: rest =>
      if c = 'n' then (dropPfx "ull".data rest).map (fun r => (.jnull, r))
      else if c = 't' then (dropPfx "rue".data rest).map (fun r => (.jbool true, r))
      else if c = 'f' then (dropPfx "alse".data rest).map (fun r => (.jbool false, r))
      else if c = '"' then (jparseString rest).map (fun r => (.jstr r.1, r.2))
      else if c = '[' then
        match jskipWs rest with
        | ']' :: r2 => some (.jarr [], r2)
        | r2 => (jparseItems fuel r2).map (fun r => (.jarr r.1, r.2))
      else if c = lbrace then
        match jskipWs rest with
        | c2 :: r2 =>
          if c2 = rbrace then some (.jobj [], r2)
          else (jparseFields fuel (c2 :: r2)).map (fun r => (.jobj r.1, r.2))
        | [] => none
      else jparseNumber (c :: rest)

/-- Parse the comma-separated items of a non-empty JSON array, up to and
including the closing bracket. -/
def jparseItems : Nat → List Char → Option (List JsonValue × List Char)
  | 0, _ => none
  | fuel + 1, l =>
    match jparseValue fuel l with
    | none => none
    | some (v, r) =>
      match jskipWs r with
      | ',' :: r2 => (jparseItems fuel r2).map (fun p => (v :: p.1, p.2))
      | ']' :: r2 => some ([v], r2)
      | _ => none

/-- Parse the comma-separated fields of a non-empty JSON object, up to and
including the closing brace. -/
def jparseFields : Nat → List Char → Option (List (String × JsonValue) × List Char)
  | 0, _ => none
  | fuel + 1, l =>
    match jskipWs l with
    | '"' :: r =>
      match jparseString r with
      | none => none
      | some (k, r2) =>
        match jskipWs r2 with
        | ':' :: r3 =>
          match jparseValue fuel r3 with
          | none => none
          | some (v, r4) =>
            match jskipWs r4 with
            | ',' :: r5 => (jparseFields fuel r5).map (fun p => ((k, v) :: p.1, p.2))
            | c :: r5 => if c = rbrace then some ([(k, v)], r5) else none
            | [] => none
        | _ => none
    | _ => none

end

/-- JSON.parse: parse a complete JSON document (only trailing whitespace may
follow the value). -/
def jsonParse (s : String) : Option JsonValue :=
  match jparseValue (s.data.length + 1) s.data with
  | some (v, rest) => if jskipWs rest = [] then some v else none
  | none => none

/-! extractJsonPayload and its regex helpers. -/

/-- The lazy fenced-block capture: find the first (case-insensitive)
occurrence of the opening fence, then capture up to the next closing fence;
no match when no closing fence follows.  This is the leftmost-earliest match
semantics of the lazy regexes in extractJsonPayload. -/
def fencedCapture (tag : List Char) (text : String) : Option String :=
  match firstIdx ("```".data ++ tag) (lowerChars text.data) with
  | none => none
  | some i =>
    let rest := text.data.drop (i + 3 + tag.length)
    match firstIdx "```".data rest with
    | none => none
    | some j => some (String.mk (rest.take j))

/-- The fenced block preferred by extractJsonPayload: a json-labelled fence
if one matches, else any fence. -/
def fencedMatch (text : String) : Option String :=
  match fencedCapture "json".data text with
  | some cap => some cap
  | none => fencedCapture [] text

/-- Index of the last occurrence of a character. -/
def lastIdxCh (c : Char) (l : List Char) : Option Nat :=
  (firstIdx [c] l.reverse).map (fun j => l.length - 1 - j)

/-- The greedy brace regex of the fallback: from the first opening brace to
the last closing brace of the text (not a balanced span). -/
def braceSpan (text : String) : Option String :=
  match firstIdx [lbrace] text.data with
  | none => none
  | some i =>
    let rest := text.data.drop i
    match lastIdxCh rbrace rest with
    | none => none
    | some j => if 1 ≤ j then some (String.mk (rest.take (j + 1))) else none

/-- extractJsonPayload: take the fenced block if present (json-labelled
preferred), else the whole text; parse the trimmed candidate as JSON; when
that fails and no fenced block was found, parse the greedy brace span of the
raw text; otherwise null. -/
def extractJsonPayload (text : String) : Option JsonValue :=
  if text = "" then none
  else
    let fenced := fencedMatch text
    match jsonParse (jsTrim (fenced.getD text)) with
    | some v => some v
    | none =>
      match fenced with
      | some _ => none
      | none =>
        match braceSpan text with
        | some blk => jsonParse blk
        | none => none

/-- The first balanced brace span of a text: from the first opening brace to
its matching closing brace, by depth counting. -/
def balancedSpanAux : List Char → Nat → List Char → Option (List Char)
  | [], _, _ => none
  | c :: rest, depth, acc =>
    if c = lbrace then balancedSpanAux rest (depth + 1) (c :: acc)
    else if c = rbrace then
      if depth = 1 then some ((c :: acc).reverse)
      else balancedSpanAux rest (depth - 1) (c :: acc)
    else balancedSpanAux rest depth (c :: acc)

/-- The first balanced brace span of a text, if any. -/
def firstBalancedBraceSpan (text : String) : Option String :=
  match firstIdx [lbrace] text.data with
  | none => none
  | some i => (balancedSpanAux (text.data.drop i) 0 []).map String.mk

/-- Following the spec's words, for comparison with extractJsonPayload: the
same candidate selection, but on a candidate parse failure the fallback
always locates the FIRST BALANCED brace span in the raw text and parses it,
whether or not a fenced block was present. -/
def extractJsonPayloadSpec (text : String) : Option JsonValue :=
  if text = "" then none
  else
    let fenced := fencedMatch text
    match jsonParse (jsTrim (fenced.getD text)) with
    | some v => some v
    | none =>
      match firstBalancedBraceSpan text with
      | some blk => jsonParse blk
      | none => none

/-! coerceGeneratedItems and the backlog synthesis prompt. -/

/-- Last-wins lookup in a JSON object field list (JSON.parse keeps the last
duplicate key, like a JS object literal). -/
def jsonLookup (fields : List (String × JsonValue)) (k : String) : Option JsonValue :=
  (fields.reverse.find? (fun f => f.1 == k)).map (·.2)

/-- Is the numeric lexeme a representation of zero (all mantissa digits 0)? -/
def isZeroNumLexeme (lex : String) : Bool :=
  ((lex.data.takeWhile (fun c => ¬(c = 'e' ∨ c = 'E'))).filter Char.isDigit).all
    (fun c => c = '0')

/-- JS truthiness of a JSON value. -/
def jsTruthy : JsonValue → Bool
  | .jnull => false
  | .jbool b => b
  | .jnum lex => !(isZeroNumLexeme lex)
  | .jstr s => s ≠ ""
  | .jarr _ => true
  | .jobj _ => true

/-- JS template stringification of a JSON value, for the primitive values the
coerced fields can hold (container values are approximated by their JS
Array/Object toString forms, which never arise from well-formed agent
payloads). -/
def jsToDisplayString : JsonValue → String
  | .jnull => "null"
  | .jbool b => if b then "true" else "false"
  | .jnum lex => lex
  | .jstr s => s
  | .jarr _ => ""
  | .jobj _ => "[object Object]"

/-- item.field || fallback, on a JSON item: the field's value when the item
is an object, the field is present and its value truthy; else the fallback. -/
def fieldOrDefault (item : JsonValue) (k fallback : String) : String :=
  match item with
  | .jobj fields =>
    match jsonLookup fields k with
    | some v => if jsTruthy v then jsToDisplayString v else fallback
    | none => fallback
  | _ => fallback

/-- The designated fallback backlog tier of coerceGeneratedItems. -/
def fallbackBacklogTier : String := "Tier 4: Reliability & Backlog Expansion"

/-- coerceGeneratedItems: read payload.items when it is an array (else the
payload itself when it is an array, else nothing) and give every entry safe
defaults; the generated id derives from the current time (Date.now(),
modelled as the `now` parameter) and the entry's ordinal. -/
def coerceGeneratedItems (now : Nat) (payload : Option JsonValue) : List ChecklistItem :=
  match payload with
  | none => []
  | some p =>
    let rawItems : List JsonValue :=
      match p with
      | .jobj fields =>
        match jsonLookup fields "items" with
        | some (.jarr items) => items
        | _ => []
      | .jarr items => items
      | _ => []
    rawItems.enum.map (fun ix =>
      { id := fieldOrDefault ix.2 "id" ("INF-" ++ toString now ++ "-" ++ toString (ix.1 + 1))
        target := fieldOrDefault ix.2 "target" "Backlog scenario"
        priority := fieldOrDefault ix.2 "priority" "P2"
        risk := fieldOrDefault ix.2 "risk" "Moderate"
        status := fieldOrDefault ix.2 "status" "☐ Not Started"
        tier := fieldOrDefault ix.2 "tier" fallbackBacklogTier
        sectionName := "" })

/-- buildBacklogSynthesisPrompt: the synthesis prompt embedding the mission
brief, the current checklist text and the needed row count. -/
def buildBacklogSynthesisPrompt (missionBrief checklistContent : String)
    (neededCount : Nat) : String :=
  (if jsTrim missionBrief ≠ "" then
    "You are an autonomous reliability planner. When the existing backlog runs dry you must synthesize new checklist rows that feel like thoughtful follow-ons, not duplicates.\n\nContext about the system under test (SUT):\n"
      ++ jsTrim missionBrief
  else
    "You are an autonomous reliability planner. When the existing backlog runs dry you must synthesize new checklist rows that feel like thoughtful follow-ons, not duplicates.\n\nContext about the system under test (SUT):\nMission brief not provided.")
  ++ "\n\nCurrent checklist markdown (for reference, do not rewrite existing rows):\n"
  ++ checklistContent
  ++ "\n\nGenerate " ++ toString neededCount
  ++ " brand-new checklist rows that are scoped to one autonomous run each. Keep the same five-column structure (ID, Target, Priority, Risk, Status) and prefer concrete targets over placeholders.\n\nRespond ONLY with JSON using the shape:\n\x7b\n  \"items\": [\n    \x7b\"id\": \"INF-123\", \"target\": \"...\", \"priority\": \"P1\", \"risk\": \"High\", \"status\": \"☐ Not Started\"\x7d\n  ]\n\x7d"

/-! Tier resolution, tier-section creation and row appending. -/

/-- The run mode. -/
inductive Mode
  | finite
  | infinite
deriving DecidableEq, Repr

/-- JS String.prototype.endsWith. -/
def jsEndsWith (s suf : String) : Bool :=
  suf.data.isSuffixOf s.data

/-- JS String.prototype.trimEnd. -/
def jsTrimEnd (s : String) : String :=
  String.mk (s.data.reverse.dropWhile Char.isWhitespace).reverse

/-- ASCII uppercasing (JS toUpperCase on the ASCII ids at stake). -/
def upperChars (l : List Char) : List Char :=
  l.map Char.toUpper

/-- Insert-or-overwrite in an insertion-ordered association list (JS object
assignment semantics: an existing key keeps its position). -/
def setAssoc (m : List (String × String)) (k v : String) : List (String × String) :=
  if m.any (fun p => p.1 == k) then m.map (fun p => if p.1 == k then (k, v) else p)
  else m ++ [(k, v)]

/-- Lookup in an association list. -/
def getAssoc (m : List (String × String)) (k : String) : Option String :=
  (m.find? (fun p => p.1 == k)).map (·.2)

/-- buildPrefixTierMap: map each id prefix (the substring before the first
dash, uppercased) to the tier of the last item carrying it. -/
def buildPrefixTierMap (items : List ChecklistItem) : List (String × String) :=
  items.foldl (fun m item =>
    let pfx := (jsSplit1 '-' item.id).getD 0 ""
    if pfx ≠ "" ∧ item.tier ≠ "" then setAssoc m (String.mk (upperChars pfx.data)) item.tier
    else m) []

/-- Prefix a tier label with the heading marker unless already present. -/
def withHashes (t : String) : String :=
  if jsStartsWith t "## " then t else "## " ++ t

/-- resolveTierHeading: the item's own (trimmed, non-empty) tier, else the
prefix-map lookup; nothing when neither resolves. -/
def resolveTierHeading (item : ChecklistItem) (prefixTierMap : List (String × String)) :
    Option String :=
  if jsTrim item.tier ≠ "" then some (withHashes (jsTrim item.tier))
  else
    let pfx := String.mk (upperChars (((jsSplit1 '-' item.id).getD 0 "").data))
    match (if pfx ≠ "" then getAssoc prefixTierMap pfx else none) with
    | some l => if l ≠ "" then some (withHashes l) else none
    | none => none

/-- ensureTierSection: append a fresh tier section (heading, column header,
divider) at the end of the document when the heading is absent; otherwise
only guarantee a trailing newline. -/
def ensureTierSection (content tierName : String) : String :=
  let header := if jsStartsWith tierName "## " then tierName else "## " ++ tierName
  if jsIncludes content header then
    if jsEndsWith content "\n" then content else content ++ "\n"
  else
    let trimmed := jsTrimEnd content
    (if trimmed ≠ "" then trimmed ++ "\n\n" else trimmed)
      ++ header ++ "\n" ++ checklistTableHeader ++ "\n" ++ checklistTableDivider ++ "\n"

/-- ensureInfiniteBacklogSection: the designated backlog tier section. -/
def ensureInfiniteBacklogSection (content : String) : String :=
  ensureTierSection content fallbackBacklogTier

/-- The per-tier table position metadata collected by buildTierTableMetadata. -/
structure TierTableMeta where
  tableHeaderLine : Option Nat := none
  tableEndLine : Option Nat := none
deriving DecidableEq, Repr

/-- Insert-or-update in the metadata association list. -/
def updateMetaAssoc (metas : List (String × TierTableMeta)) (k : String)
    (f : TierTableMeta → TierTableMeta) : List (String × TierTableMeta) :=
  if metas.any (fun p => p.1 == k) then
    metas.map (fun p => if p.1 == k then (k, f p.2) else p)
  else metas ++ [(k, f {})]

/-- One line step of buildTierTableMetadata. -/
def btmStep (st : List (String × TierTableMeta) × Option String × Bool)
    (iline : Nat × String) : List (String × TierTableMeta) × Option String × Bool :=
  let (metas0, currentTier0, inTable0) := st
  let (i, line) := iline
  let (metas, currentTier, inTable) :=
    if jsStartsWith line "## " then
      (if metas0.any (fun p => p.1 == jsTrim line) then metas0
       else metas0 ++ [(jsTrim line, {})],
       some (jsTrim line), false)
    else (metas0, currentTier0, inTable0)
  match currentTier with
  | none => (metas, none, inTable)
  | some ct =>
    if jsIncludes line "| ID |" && jsIncludes line "| Status |" then
      (updateMetaAssoc metas ct
        (fun m => { m with tableHeaderLine := some i, tableEndLine := some i }),
       currentTier, true)
    else if inTable then
      if jsStartsWith (jsTrim line) "|" then
        (updateMetaAssoc metas ct (fun m => { m with tableEndLine := some i }),
         currentTier, inTable)
      else if jsTrim line = "" ∨ jsStartsWith (jsTrim line) "-" then
        (metas, currentTier, false)
      else (metas, currentTier, inTable)
    else (metas, currentTier, inTable)

/-- buildTierTableMetadata over the document lines. -/
def buildTierTableMetadata (lines : List String) : List (String × TierTableMeta) :=
  (lines.enum.foldl btmStep ([], none, false)).1

/-- The insertion line of a tier table: the line after its last row, else the
line after its header, else nothing. -/
def insertLineOf (m : TierTableMeta) : Option Nat :=
  match m.tableEndLine with
  | some e => some (e + 1)
  | none =>
    match m.tableHeaderLine with
    | some h => some (h + 1)
    | none => none

/-- Append an item to an insertion-ordered group list. -/
def groupUpsert (groups : List (String × List ChecklistItem)) (k : String)
    (item : ChecklistItem) : List (String × List ChecklistItem) :=
  if groups.any (fun p => p.1 == k) then
    groups.map (fun p => if p.1 == k then (p.1, p.2 ++ [item]) else p)
  else groups ++ [(k, [item])]

/-- groupItemsByTierHeading: group by resolved tier heading, skipping (with a
warning in the source) items whose tier cannot be resolved. -/
def groupItemsByTierHeading (items : List ChecklistItem)
    (prefixTierMap : List (String × String)) : List (String × List ChecklistItem) :=
  items.foldl (fun groups item =>
    match resolveTierHeading item prefixTierMap with
    | none => groups
    | some h => groupUpsert groups h item) []

/-- First-occurrence deduplication (JS new Set iteration order). -/
def uniqueFirstAux (seen : List String) : List String → List String
  | [] => []
  | x :: xs =>
    if x ∈ seen then uniqueFirstAux seen xs
    else x :: uniqueFirstAux (x :: seen) xs

/-- First-occurrence deduplication of a string list. -/
def uniqueFirst (l : List String) : List String :=
  uniqueFirstAux [] l

/-- Stable insertion into a descending-by-insertion-line list: an element
goes after all strictly larger keys and before equal ones seen later,
matching the stable descending JS sort((a, b) => b.insertLine - a.insertLine). -/
def insertDesc (x : Nat × List String) : List (Nat × List String) → List (Nat × List String)
  | [] => [x]
  | y :: ys => if x.1 < y.1 then y :: insertDesc x ys else x :: y :: ys

/-- Stable descending sort by insertion line. -/
def sortByInsertLineDesc : List (Nat × List String) → List (Nat × List String)
  | [] => []
  | x :: xs => insertDesc x (sortByInsertLineDesc xs)

/-- Splice rows into the line list at the given index (JS splice semantics:
an index beyond the end appends). -/
def insertRowsAt (ls : List String) (i : Nat) (rows : List String) : List String :=
  ls.take i ++ rows ++ ls.drop i

/-- appendRowsToChecklist as a pure function on the document content: ensure
sections for unseen tier labels, group the items by resolved heading, drop
(with a warning in the source) groups whose heading has no table metadata,
and splice each group's formatted rows at its insertion line, processing
insertions bottom-up. -/
def appendRowsToChecklist (content : String) (items : List ChecklistItem)
    (prefixTierMap : List (String × String)) : String :=
  if items = [] then content
  else
    let uniqueTiers := uniqueFirst ((items.map (fun i => i.tier)).filter (fun t => t ≠ ""))
    let content2 := uniqueTiers.foldl
      (fun c tier => if jsIncludes c tier then c else ensureTierSection c tier) content
    let lines := if content2 ≠ "" then jsSplit1 '\n' content2 else []
    let tierMetadata := buildTierTableMetadata lines
    let grouped := groupItemsByTierHeading items prefixTierMap
    let insertions := grouped.filterMap (fun grp =>
      match (tierMetadata.find? (fun p => p.1 == grp.1)).map (·.2) with
      | none => none
      | some meta =>
        match insertLineOf meta with
        | none => none
        | some il => some (il, grp.2.map formatChecklistRow))
    let sorted := sortByInsertLineDesc insertions
    jsJoin1 '\n' (sorted.foldl (fun ls ins => insertRowsAt ls ins.1 ins.2) lines)

/-! The run environment, the effect trace and extendChecklistIfNeeded. -/

/-- The repo-relative checklist document path. -/
def checklistPath : String := "SUT-CHECKLIST.md"

/-- The repo-relative runs directory. -/
def runsDir : String := "runs"

/-- The completion-promise string the item prompt instructs agents to emit. -/
def COMPLETION_PROMISE : String := "ITEM_COMPLETE"

/-- One observable side effect of a run.  spawnAgent covers one
runAgentWithPrompt call (its subprocess invocations and per-attempt
transcript logs). -/
inductive Effect
  | spawnAgent (label prompt : String)
  | mkdir (path : String)
  | writeFile (path content : String)
  | updateStatus (id newStatus : String)
  | appendRows (rows : List ChecklistItem)
deriving DecidableEq, Repr

deriving instance DecidableEq for Except

/-- The configuration and externals of one processChecklist run: the mode and
flags, the loaded mission brief and prompt templates, and the agent oracle
giving each labelled session's per-attempt observations (freeze flag, exit
code, captured output). -/
structure Env where
  mode : Mode
  dryRun : Bool
  batchSize : Nat
  agentMaxRetries : Nat
  missionBrief : String
  agentSystemPrompt : String
  tierReportPromptTemplate : Option String
  attemptOracle : String → Nat → Bool × Int × String
  now : Nat

/-- Run one labelled agent session through the retry loop, classifying each
attempt's observations. -/
def runAgentFor (env : Env) (label : String) : AgentOutcome × Nat :=
  runAgentWithPrompt (fun i =>
    match env.attemptOracle label i with
    | (ft, code, out) => executeAgentAttempt ft code out) env.agentMaxRetries

/-- extendChecklistIfNeeded: only in infinite mode and only when fewer items
remain than the batch size, run the synthesis agent for the shortfall, parse
its payload, truncate the coerced items to the shortfall and append them.
Returns (extended, new content, appended items, effects); an agent failure
propagates as the error. -/
def extendChecklistIfNeeded (env : Env) (content : String) :
    Except (Option Reason) (Bool × String × List ChecklistItem × List Effect) :=
  if env.mode ≠ Mode.infinite then .ok (false, content, [], [])
  else
    let items := parseChecklist content
    let prefixTierMap := buildPrefixTierMap items
    let remaining := getRemainingChecklistItems items
    let needed := env.batchSize - remaining.length
    if needed = 0 then .ok (false, content, [], [])
    else
      let prompt := buildBacklogSynthesisPrompt env.missionBrief content needed
      match runAgentFor env "infinite-backlog" with
      | (.err e, _) => .error e
      | (.ok output, _) =>
        let generatedItems := coerceGeneratedItems env.now (extractJsonPayload output)
        if generatedItems = [] then
          .ok (false, content, [], [.spawnAgent "infinite-backlog" prompt])
        else
          let truncated := generatedItems.take needed
          let newContent := appendRowsToChecklist content truncated prefixTierMap
          .ok (true, newContent, truncated,
            [.spawnAgent "infinite-backlog" prompt, .appendRows truncated,
             .writeFile checklistPath newContent])

/-! The filesystem world, tier reports and the processChecklist driver. -/

/-- The mutable state a run touches: the checklist document, the other files
(path to content) and the created directories. -/
structure World where
  checklist : String
  files : List (String × String)
  dirs : List String
deriving DecidableEq, Repr

/-- existsSync on the file map. -/
def fileExists (w : World) (p : String) : Bool :=
  w.files.any (fun f => f.1 == p)

/-- Write (create or overwrite) a file. -/
def writeFileW (w : World) (p c : String) : World :=
  { w with files := setAssoc w.files p c }

/-- Strip a leading heading marker and the whitespace after it. -/
def stripHashes (l : List Char) : List Char :=
  match l with
  | '#' :: '#' :: rest => rest.dropWhile Char.isWhitespace
  | _ => l

/-- Replace every non-alphanumeric character by an underscore. -/
def sanitizeChars (l : List Char) : List Char :=
  l.map (fun c => if c.isAlphanum then c else '_')

/-- Collapse runs of underscores to a single underscore. -/
def collapseUnderscores : List Char → List Char
  | [] => []
  | [c] => [c]
  | c1 :: c2 :: rest =>
    if c1 = '_' ∧ c2 = '_' then collapseUnderscores (c2 :: rest)
    else c1 :: collapseUnderscores (c2 :: rest)

/-- Strip one leading and one trailing underscore (the anchored regex). -/
def stripUnderscoreEnds (l : List Char) : List Char :=
  let l1 := match l with
    | '_' :: r => r
    | _ => l
  match l1.reverse with
  | '_' :: r => r.reverse
  | _ => l1

/-- getSanitizedTierName: strip the heading marker, replace non-alphanumerics
by underscores, collapse runs, strip the ends, lowercase. -/
def getSanitizedTierName (tierHeading : String) : String :=
  String.mk (lowerChars (stripUnderscoreEnds (collapseUnderscores
    (sanitizeChars (stripHashes tierHeading.data)))))

/-- getRunDir: runs/<sanitized tier>/<item id>, with an uncategorized bucket
when no tier resolves. -/
def getRunDir (item : ChecklistItem) (prefixTierMap : List (String × String)) : String :=
  let tierName := match resolveTierHeading item prefixTierMap with
    | some heading => getSanitizedTierName heading
    | none => "uncategorized"
  runsDir ++ "/" ++ tierName ++ "/" ++ item.id

/-- Remove ANSI colour sequences (the /\u001b\[[0-9;]*m/g regex), with fuel
bounded by the text length (every step consumes at least one character). -/
def stripAnsiFuel : Nat → List Char → List Char
  | 0, l => l
  | _ + 1, [] => []
  | fuel + 1, c :: rest =>
    if c = '\x1b' then
      match rest with
      | '[' :: r2 =>
        let ds := r2.takeWhile (fun d => d.isDigit || d = ';')
        match r2.drop ds.length with
        | 'm' :: r4 => stripAnsiFuel fuel r4
        | _ => c :: stripAnsiFuel fuel rest
      | _ => c :: stripAnsiFuel fuel rest
    else c :: stripAnsiFuel fuel rest

/-- Remove ANSI colour sequences. -/
def stripAnsi (l : List Char) : List Char :=
  stripAnsiFuel l.length l

/-- cleanAgentOutput: strip ANSI sequences; cut everything before the first
line beginning with a top-level heading marker; otherwise filter out lines
that look like tool-call noise and trim. -/
def cleanAgentOutput (text : String) : String :=
  if text = "" then ""
  else
    let lines := jsSplit1 '\n' (String.mk (stripAnsi text.data))
    match lines.findIdx? (fun l => jsStartsWith l "# ") with
    | some i => jsTrimStart (jsJoin1 '\n' (lines.drop i))
    | none =>
      jsTrim (jsJoin1 '\n' (lines.filter (fun l =>
        !(jsStartsWith (jsTrim l) "|") && !(jsIncludes l "Glob") && !(jsIncludes l "Read"))))

/-- The digest of the per-item reports accumulated for a complete tier. -/
def tierReportDigest (w : World) (prefixTierMap : List (String × String))
    (tierItems : List ChecklistItem) : String :=
  tierItems.foldl (fun acc item =>
    acc ++ "\n\n### Report for " ++ item.id ++ ": " ++ item.target ++ "\n"
      ++ (match (w.files.find? (fun f =>
            f.1 == getRunDir item prefixTierMap ++ "/" ++ item.id ++ "-FINAL-REPORT.md")) with
          | some f => f.2
          | none => "*No final report found for this item.*")
      ++ "\n\n---") ""

/-- The tier grouping of generateTierReportsIfNeeded: group by resolved tier
heading with the heading marker stripped, skipping unresolvable items. -/
def tierGroups (items : List ChecklistItem) (prefixTierMap : List (String × String)) :
    List (String × List ChecklistItem) :=
  items.foldl (fun acc item =>
    match resolveTierHeading item prefixTierMap with
    | none => acc
    | some heading => groupUpsert acc (String.mk (stripHashes heading.data)) item) []

/-- The report artifact path of a tier name. -/
def tierReportPath (tierName : String) : String :=
  runsDir ++ "/" ++ getSanitizedTierName tierName ++ "/"
    ++ getSanitizedTierName tierName ++ "-FINAL-REPORT.md"

/-- Ensure the tier run directory exists (mkdirSync guarded by existsSync). -/
def ensureTierDir (tierDir : String) (acc : World × List Effect) : World × List Effect :=
  if acc.1.dirs.any (fun d => d == tierDir) then acc
  else ({ acc.1 with dirs := acc.1.dirs ++ [tierDir] }, acc.2 ++ [.mkdir tierDir])

/-- The report-producing tail of one tier iteration: skip when the report
artifact already exists; otherwise produce it, through the template and an
agent session when a template is configured (an agent failure produces no
report), else as the minimal fallback concatenation. -/
def writeTierReport (env : Env) (prefixTierMap : List (String × String))
    (grp : String × List ChecklistItem) (acc2 : World × List Effect) :
    World × List Effect :=
  if fileExists acc2.1 (tierReportPath grp.1) then acc2
  else
    let digest := tierReportDigest acc2.1 prefixTierMap grp.2
    match env.tierReportPromptTemplate with
    | none =>
      (writeFileW acc2.1 (tierReportPath grp.1) ("# " ++ grp.1 ++ " - Tier Report\n\n" ++ digest),
       acc2.2 ++ [.writeFile (tierReportPath grp.1) ("# " ++ grp.1 ++ " - Tier Report\n\n" ++ digest)])
    | some tpl =>
      let prompt := jsReplaceFirst (jsReplaceFirst (jsReplaceFirst (jsReplaceFirst tpl
          "\x7b\x7bTIER_NAME\x7d\x7d" grp.1)
          "\x7b\x7bCHECKLIST_ROWS\x7d\x7d" (jsJoin1 '\n' (grp.2.map formatChecklistRow)))
          "\x7b\x7bMISSION_BRIEF\x7d\x7d" env.missionBrief)
          "\x7b\x7bFINAL_REPORT_DIGEST\x7d\x7d" digest
      match runAgentFor env ("tier-report-" ++ getSanitizedTierName grp.1) with
      | (.ok rawOutput, _) =>
        (writeFileW acc2.1 (tierReportPath grp.1) (cleanAgentOutput rawOutput),
         acc2.2 ++ [.spawnAgent ("tier-report-" ++ getSanitizedTierName grp.1) prompt,
           .writeFile (tierReportPath grp.1) (cleanAgentOutput rawOutput)])
      | (.err _, _) =>
        (acc2.1, acc2.2 ++ [.spawnAgent ("tier-report-" ++ getSanitizedTierName grp.1) prompt])

/-- One tier of generateTierReportsIfNeeded: skip incomplete tiers; ensure
the tier run directory; then run the report-producing tail. -/
def processTierGroup (env : Env) (prefixTierMap : List (String × String))
    (acc : World × List Effect) (grp : String × List ChecklistItem) :
    World × List Effect :=
  if ¬ (grp.2.all (fun item => jsIncludes item.status "✅")) then acc
  else
    writeTierReport env prefixTierMap grp
      (ensureTierDir (runsDir ++ "/" ++ getSanitizedTierName grp.1) acc)

/-- generateTierReportsIfNeeded over all tier groups. -/
def generateTierReportsIfNeeded (env : Env) (items : List ChecklistItem) (w : World) :
    World × List Effect :=
  (tierGroups items (buildPrefixTierMap items)).foldl
    (processTierGroup env (buildPrefixTierMap items)) (w, [])

/-- Lookup of a file's content. -/
def lookupFile (w : World) (p : String) : Option String :=
  (w.files.find? (fun f => f.1 == p)).map (·.2)

/-- The number of write effects targeting a path. -/
def countWritesTo (p : String) (effs : List Effect) : Nat :=
  (effs.filter (fun e => match e with
    | .writeFile q _ => q == p
    | _ => false)).length

/-- Repeated orchestrator passes of tier-report generation, each with its own
environment and parsed items (statuses may change between passes). -/
def runTierReportPasses : List (Env × List ChecklistItem) → World → World × List Effect
  | [], w => (w, [])
  | (env, items) :: rest, w =>
    let r1 := generateTierReportsIfNeeded env items w
    let r2 := runTierReportPasses rest r1.1
    (r2.1, r1.2 ++ r2.2)

/-- One dispatched batch item (the async unit inside processChecklist):
create the run directory tree (unless dry-run), render the item prompt from
the system-prompt template plus the appended task instructions (which demand
the completion-promise string), and unless dry-run run the agent session; on
success write the transcript log and the completion marker, on any error the
failure marker. -/
def dispatchItem (env : Env) (prefixTierMap : List (String × String))
    (acc : World × List Effect) (item : ChecklistItem) : World × List Effect :=
  let runDir := getRunDir item prefixTierMap
  let mkdirs := [runDir, runDir ++ "/config", runDir ++ "/dx_evaluation",
    runDir ++ "/mocks", runDir ++ "/pipelines", runDir ++ "/research",
    runDir ++ "/results", runDir ++ "/tests"]
  let acc1 : World × List Effect :=
    if env.dryRun then acc
    else ({ acc.1 with dirs := acc.1.dirs ++ mkdirs }, acc.2 ++ mkdirs.map Effect.mkdir)
  let prompt :=
    jsReplaceFirst (jsReplaceFirst (jsReplaceFirst (jsReplaceFirst (jsReplaceFirst
      (jsReplaceFirst (jsReplaceFirst (jsReplaceFirst (jsReplaceFirst
        env.agentSystemPrompt
        "\x7b\x7bENTRY_ID\x7d\x7d" item.id)
        "\x7b\x7bENTRY_TITLE\x7d\x7d" item.target)
        "\x7b\x7bPRIORITY\x7d\x7d" item.priority)
        "\x7b\x7bRISK_CLASS\x7d\x7d" item.risk)
        "\x7b\x7bINDUSTRY\x7d\x7d" "Tech")
        "\x7b\x7bDEPLOYMENT_MODE\x7d\x7d" "Dev")
        "\x7b\x7bCHECKLIST_FILE\x7d\x7d" checklistPath)
        "\x7b\x7bMISSION_BRIEF\x7d\x7d"
          (if env.missionBrief ≠ "" then env.missionBrief else "No brief provided"))
        "\x7b\x7bRUN_DIR\x7d\x7d" runDir
      ++ "\n\nYOUR CURRENT TASK:\nExecute checklist item " ++ item.id ++ ": "
      ++ item.target ++ "\n"
      ++ "Perform the necessary tests/research. All artifacts MUST be saved in: "
      ++ runDir ++ "\n"
      ++ "When you have completed the task and generated the FINAL-REPORT.md, you MUST output: \""
      ++ COMPLETION_PROMISE ++ "\" to signal completion.\n"
  if env.dryRun then acc1
  else
    match runAgentFor env ("task-" ++ item.id) with
    | (.ok output, _) =>
      ({ writeFileW acc1.1 (runDir ++ "/results/agent-log.txt") output with
          checklist := updateChecklistItemStatus acc1.1.checklist item.id "✅ Completed" },
       acc1.2 ++ [.spawnAgent ("task-" ++ item.id) prompt,
         .writeFile (runDir ++ "/results/agent-log.txt") output,
         .updateStatus item.id "✅ Completed"])
    | (.err _, _) =>
      ({ acc1.1 with
          checklist := updateChecklistItemStatus acc1.1.checklist item.id "❌ Failed" },
       acc1.2 ++ [.spawnAgent ("task-" ++ item.id) prompt,
         .updateStatus item.id "❌ Failed"])

/-- processChecklist: infinite-mode pre-extension, tier-report generation,
the empty-backlog re-extension, the dry-run short circuit, and the dispatch
of a single batch of at most batchSize remaining items.  Errors of the
synthesis agent propagate. -/
def processChecklist (env : Env) (w0 : World) :
    Except (Option Reason) (World × List Effect) :=
  match (if env.mode = Mode.infinite then extendChecklistIfNeeded env w0.checklist
         else .ok (false, w0.checklist, [], [])) with
  | .error e => .error e
  | .ok r1 =>
    let w1 : World := { w0 with checklist := r1.2.1 }
    let items := parseChecklist w1.checklist
    let gtr := generateTierReportsIfNeeded env items w1
    let remaining := getRemainingChecklistItems items
    match (if remaining = [] ∧ env.mode = Mode.infinite
           then extendChecklistIfNeeded env gtr.1.checklist
           else .ok (false, gtr.1.checklist, [], [])) with
    | .error e => .error e
    | .ok r2 =>
      let w2 : World := { gtr.1 with checklist := r2.2.1 }
      let items2 := if r2.1 then parseChecklist w2.checklist else items
      let remaining2 := if r2.1 then getRemainingChecklistItems items2 else remaining
      if remaining2 = [] then .ok (w2, r1.2.2.2 ++ gtr.2 ++ r2.2.2.2)
      else if env.dryRun then .ok (w2, r1.2.2.2 ++ gtr.2 ++ r2.2.2.2)
      else
        let res := (remaining2.take env.batchSize).foldl
          (dispatchItem env (buildPrefixTierMap items2)) (w2, [])
        .ok (res.1, r1.2.2.2 ++ gtr.2 ++ r2.2.2.2 ++ res.2)

/-- The require.main entry point: one invocation of processChecklist. -/
def mainRun (env : Env) (w : World) : Except (Option Reason) (World × List Effect) :=
  processChecklist env w

/-- The number of agent sessions spawned in an effect trace. -/
def spawnCount (effs : List Effect) : Nat :=
  (effs.filter (fun e => match e with
    | .spawnAgent _ _ => true
    | _ => false)).length

/-- The spawn count of a finished run. -/
def runSpawnCount (r : Except (Option Reason) (World × List Effect)) : Option Nat :=
  match r with
  | .ok (_, effs) => some (spawnCount effs)
  | .error _ => none

/-- The number of remaining items after a finished run. -/
def runRemainingCount (r : Except (Option Reason) (World × List Effect)) : Option Nat :=
  match r with
  | .ok (w, _) => some (getRemainingChecklistItems (parseChecklist w.checklist)).length
  | .error _ => none

/-- The final checklist of a finished run. -/
def runChecklist (r : Except (Option Reason) (World × List Effect)) : Option String :=
  match r with
  | .ok (w, _) => some w.checklist
  | .error _ => none

/-- Did the run spawn an agent session with this label? -/
def runHasSpawnLabel (r : Except (Option Reason) (World × List Effect))
    (label : String) : Bool :=
  match r with
  | .ok (_, effs) => effs.any (fun e => match e with
      | .spawnAgent l _ => l == label
      | _ => false)
  | .error _ => false

/-- Did the run spawn a per-item task session? -/
def runHasTaskSpawn (r : Except (Option Reason) (World × List Effect)) : Bool :=
  match r with
  | .ok (_, effs) => effs.any (fun e => match e with
      | .spawnAgent l _ => jsStartsWith l "task-"
      | _ => false)
  | .error _ => false

/-- A six-item single-tier checklist document, none complete. -/
def sixItemChecklist : String :=
  "## Tier 1: A\n| ID | Target | Priority | Risk | Status |\n|----|--------|----------|------|--------|\n| T-1 | a | P0 | Low | ☐ |\n| T-2 | b | P0 | Low | ☐ |\n| T-3 | c | P0 | Low | ☐ |\n| T-4 | d | P0 | Low | ☐ |\n| T-5 | e | P0 | Low | ☐ |\n| T-6 | f | P0 | Low | ☐ |\n"

/-- A finite-mode live environment, batch size five, whose agents all exit
cleanly with a benign transcript. -/
def finiteBatchEnv : Env :=
  { mode := .finite
    dryRun := false
    batchSize := 5
    agentMaxRetries := 1
    missionBrief := ""
    agentSystemPrompt := ""
    tierReportPromptTemplate := none
    attemptOracle := fun _ _ => (false, 0, "done")
    now := 0 }

/-- A one-item checklist document (fewer remaining items than the infinite
batch size below). -/
def oneItemChecklist : String :=
  "## Tier 1: A\n| ID | Target | Priority | Risk | Status |\n|----|--------|----------|------|--------|\n| T-1 | a | P0 | Low | ☐ |\n"

/-- A live environment whose task agents exit cleanly while printing a
transcript that lacks the completion promise. -/
def promiseFreeEnv : Env :=
  { mode := .finite
    dryRun := false
    batchSize := 1
    agentMaxRetries := 2
    missionBrief := "m"
    agentSystemPrompt := "s"
    tierReportPromptTemplate := none
    attemptOracle := fun _ _ => (false, 0, "All done.")
    now := 0 }

/-- An infinite-mode DRY-RUN environment whose synthesis agent answers with a
one-entry JSON backlog. -/
def infiniteDryRunEnv : Env :=
  { mode := .infinite
    dryRun := true
    batchSize := 2
    agentMaxRetries := 1
    missionBrief := ""
    agentSystemPrompt := ""
    tierReportPromptTemplate := none
    attemptOracle := fun _ _ => (false, 0, "[\x7b\"id\": \"N-1\"\x7d]")
    now := 7 }

end CP

/-- The invocation count of the retry loop never exceeds the remaining
allowance. -/
theorem runAgentAux_count_le (attempts : Nat → CP.AgentOutcome) :
    ∀ r idx, (CP.runAgentAux attempts idx r).2 ≤ r := by
  intro r
  induction r with
  | zero => intro idx; simp [CP.runAgentAux]
  | succ r ih =>
    intro idx
    simp only [CP.runAgentAux]
    cases h : attempts idx with
    | ok out => simp
    | err reason =>
      cases reason with
      | none => simp
      | some rr =>
        by_cases hr : r = 0
        · subst hr; simp
        · simpa [hr] using Nat.succ_le_succ (ih (idx + 1))

/-- When every allowed attempt fails retryably, the loop performs all of them
and re-raises the error of the last one. -/
theorem runAgentAux_all_retryable (attempts : Nat → CP.AgentOutcome) :
    ∀ r idx, 1 ≤ r → (∀ j, j < r → ∃ rr, attempts (idx + j) = .err (some rr)) →
      CP.runAgentAux attempts idx r = (attempts (idx + (r - 1)), r) := by
  intro r
  induction r with
  | zero => intro idx h; omega
  | succ r ih =>
    intro idx _ hall
    obtain ⟨rr, hrr⟩ := hall 0 (Nat.succ_pos r)
    simp only [Nat.add_zero] at hrr
    simp only [CP.runAgentAux, hrr]
    by_cases hr : r = 0
    · subst hr
      simp [hrr]
    · have h1r : 1 ≤ r := Nat.one_le_iff_ne_zero.mpr hr
      have hall' : ∀ j, j < r → ∃ rr, attempts (idx + 1 + j) = .err (some rr) := by
        intro j hj
        have := hall (j + 1) (Nat.succ_lt_succ hj)
        simpa [Nat.add_comm, Nat.add_assoc, Nat.add_left_comm] using this
      have := ih (idx + 1) h1r hall'
      simp only [hr, if_false, this]
      have harg : idx + 1 + (r - 1) = idx + (r + 1 - 1) := by omega
      rw [harg]

/-- A failure without retry metadata stops the loop at once: the error
propagates and no further attempt is made. -/
theorem runAgentAux_nonretryable (attempts : Nat → CP.AgentOutcome) :
    ∀ k r idx, k < r → attempts (idx + k) = .err none →
      (∀ j, j < k → ∃ rr, attempts (idx + j) = .err (some rr)) →
      CP.runAgentAux attempts idx r = (.err none, k + 1) := by
  intro k
  induction k with
  | zero =>
    intro r idx hk hnone _
    obtain ⟨r', rfl⟩ : ∃ r', r = r' + 1 := ⟨r - 1, by omega⟩
    simp only [Nat.add_zero] at hnone
    simp [CP.runAgentAux, hnone]
  | succ k ih =>
    intro r idx hk hnone hall
    obtain ⟨r', rfl⟩ : ∃ r', r = r' + 1 := ⟨r - 1, by omega⟩
    obtain ⟨rr, hrr⟩ := hall 0 (Nat.succ_pos k)
    simp only [Nat.add_zero] at hrr
    have hr' : r' ≠ 0 := by omega
    have hnone' : attempts (idx + 1 + k) = .err none := by
      simpa [Nat.add_comm, Nat.add_assoc, Nat.add_left_comm] using hnone
    have hall' : ∀ j, j < k → ∃ rr, attempts (idx + 1 + j) = .err (some rr) := by
      intro j hj
      have := hall (j + 1) (Nat.succ_lt_succ hj)
      simpa [Nat.add_comm, Nat.add_assoc, Nat.add_left_comm] using this
    have := ih r' (idx + 1) (by omega) hnone' hall'
    simp [CP.runAgentAux, hrr, hr', this]

/-- C2: with configured maximum attempt count n (n at least 1), the number of
subprocess invocations is at most n; an attempt failing without retry
metadata (OtherFailure) propagates immediately after its own invocation and
is never retried; and when every attempt up to the n-th fails retryably
(RateLimited, PermissionDenied or Frozen), all n attempts are performed and
the last classified error is re-raised to the caller. -/
theorem c2_retry_bound_and_propagation (attempts : Nat → CP.AgentOutcome)
    (n : Nat) (hn : 1 ≤ n) :
    (CP.runAgentWithPrompt attempts n).2 ≤ n
    ∧ ((∀ i, 1 ≤ i → i ≤ n → ∃ r, attempts i = .err (some r)) →
        CP.runAgentWithPrompt attempts n = (attempts n, n))
    ∧ (∀ k, 1 ≤ k → k ≤ n → attempts k = .err none →
        (∀ i, 1 ≤ i → i < k → ∃ r, attempts i = .err (some r)) →
        CP.runAgentWithPrompt attempts n = (.err none, k)) := by
  have hmax : max 1 n = n := Nat.max_eq_right hn
  refine ⟨?_, ?_, ?_⟩
  · simpa [CP.runAgentWithPrompt, hmax] using runAgentAux_count_le attempts n 1
  · intro hall
    have h := runAgentAux_all_retryable attempts n 1 hn (by
      intro j hj
      exact hall (1 + j) (by omega) (by omega))
    rw [CP.runAgentWithPrompt, hmax, h]
    congr 1
    congr 1
    omega
  · intro k hk1 hkn hnone hall
    have h := runAgentAux_nonretryable attempts (k - 1) n 1 (by omega)
      (by rw [show 1 + (k - 1) = k by omega]; exact hnone)
      (by intro j hj; exact hall (1 + j) (by omega) (by omega))
    rw [CP.runAgentWithPrompt, hmax, h]
    congr 1
    omega

/-- Witness for C2: three rate-limit/freeze/permission failures with max 3
attempts perform exactly 3 invocations and re-raise the last error. -/
theorem c2_retry_bound_and_propagation_witness :
    CP.runAgentWithPrompt
        (fun i => if i = 1 then .err (some .rateLimit)
                  else if i = 2 then .err (some .freeze)
                  else .err (some .permission)) 3
      = (.err (some .permission), 3) := by
  have h := (c2_retry_bound_and_propagation
      (fun i => if i = 1 then .err (some .rateLimit)
                else if i = 2 then .err (some .freeze)
                else .err (some .permission)) 3 (by norm_num)).2.1
  have hall : ∀ i, 1 ≤ i → i ≤ 3 →
      ∃ r, (fun i => if i = 1 then CP.AgentOutcome.err (some .rateLimit)
                     else if i = 2 then .err (some .freeze)
                     else .err (some .permission)) i = .err (some r) := by
    intro i h1 h3
    interval_cases i
    · exact ⟨.rateLimit, rfl⟩
    · exact ⟨.freeze, rfl⟩
    · exact ⟨.permission, rfl⟩
  simpa using h hall

/-- C1: the terminal classification of an ended agent attempt follows the
precedence: a triggered freeze timeout overrides everything (Frozen);
otherwise non-zero exit with rate-limit phrasing is RateLimited, non-zero
exit with permission phrasing is PermissionDenied, any other non-zero exit
is OtherFailure; zero exit with rate-limit phrasing is still RateLimited,
zero exit with permission phrasing is still PermissionDenied, and only a
zero exit with neither pattern is Success. -/
theorem c1_classification_precedence (ft : Bool) (code : Int) (out : String) :
    (ft = true → CP.classifyAttempt ft code out = .frozen)
    ∧ (ft = false → code ≠ 0 → CP.isRateLimitMessage out = true →
        CP.classifyAttempt ft code out = .rateLimited)
    ∧ (ft = false → code ≠ 0 → CP.isRateLimitMessage out = false →
        CP.isPermissionMessage out = true →
        CP.classifyAttempt ft code out = .permissionDenied)
    ∧ (ft = false → code ≠ 0 → CP.isRateLimitMessage out = false →
        CP.isPermissionMessage out = false →
        CP.classifyAttempt ft code out = .otherFailure)
    ∧ (ft = false → code = 0 → CP.isRateLimitMessage out = true →
        CP.classifyAttempt ft code out = .rateLimited)
    ∧ (ft = false → code = 0 → CP.isRateLimitMessage out = false →
        CP.isPermissionMessage out = true →
        CP.classifyAttempt ft code out = .permissionDenied)
    ∧ (ft = false → code = 0 → CP.isRateLimitMessage out = false →
        CP.isPermissionMessage out = false →
        CP.classifyAttempt ft code out = .success) := by
  refine ⟨?_, ?_, ?_, ?_, ?_, ?_, ?_⟩ <;>
    intros <;>
    simp_all [CP.classifyAttempt, CP.executeAgentAttempt]

/-- Witness for C1 at concrete inputs exercising all seven branches. -/
theorem c1_classification_precedence_witness :
    CP.classifyAttempt true 0 "" = .frozen
    ∧ CP.classifyAttempt false 1 "HTTP 429: plan limit reached" = .rateLimited
    ∧ CP.classifyAttempt false 1 "Permission denied by sandbox" = .permissionDenied
    ∧ CP.classifyAttempt false 1 "segmentation fault" = .otherFailure
    ∧ CP.classifyAttempt false 0 "monthly quota exhausted" = .rateLimited
    ∧ CP.classifyAttempt false 0 "spawn EACCES" = .permissionDenied
    ∧ CP.classifyAttempt false 0 "Task complete!" = .success := by
  refine ⟨(c1_classification_precedence true 0 "").1 rfl,
    (c1_classification_precedence false 1 "HTTP 429: plan limit reached").2.1 rfl
      (by decide) (by decide),
    (c1_classification_precedence false 1 "Permission denied by sandbox").2.2.1 rfl
      (by decide) (by decide) (by decide),
    (c1_classification_precedence false 1 "segmentation fault").2.2.2.1 rfl
      (by decide) (by decide) (by decide),
    (c1_classification_precedence false 0 "monthly quota exhausted").2.2.2.2.1 rfl
      rfl (by decide),
    (c1_classification_precedence false 0 "spawn EACCES").2.2.2.2.2.1 rfl
      rfl (by decide) (by decide),
    (c1_classification_precedence false 0 "Task complete!").2.2.2.2.2.2 rfl
      rfl (by decide) (by decide)⟩

/-! Helper lemmas about the split and trim primitives. -/

theorem splitCh_ne_nil (c : Char) (l : List Char) : CP.splitCh c l ≠ [] := by
  induction l with
  | nil => simp [CP.splitCh]
  | cons x xs ih =>
    simp only [CP.splitCh]
    cases h : CP.splitCh c xs with
    | nil => exact absurd h ih
    | cons hh tt => by_cases hx : x = c <;> simp [hx]

theorem splitCh_cons_sep (c : Char) (b : List Char) :
    CP.splitCh c (c :: b) = [] :: CP.splitCh c b := by
  simp only [CP.splitCh]
  cases h : CP.splitCh c b with
  | nil => exact absurd h (splitCh_ne_nil c b)
  | cons hh tt => simp

theorem splitCh_append_sep (c : Char) (a b : List Char) (ha : c ∉ a) :
    CP.splitCh c (a ++ c :: b) = a :: CP.splitCh c b := by
  induction a with
  | nil => simpa using splitCh_cons_sep c b
  | cons x a2 ih =>
    have hx : ¬x = c := fun h => ha (h ▸ List.mem_cons_self x a2)
    have ha2 : c ∉ a2 := fun h => ha (List.mem_cons_of_mem x h)
    simp only [List.cons_append, CP.splitCh, List.append_eq]
    rw [ih ha2]
    simp [hx]

theorem splitCh_no_sep (c : Char) (a : List Char) (ha : c ∉ a) :
    CP.splitCh c a = [a] := by
  induction a with
  | nil => rfl
  | cons x a2 ih =>
    have hx : ¬x = c := fun h => ha (h ▸ List.mem_cons_self x a2)
    have ha2 : c ∉ a2 := fun h => ha (List.mem_cons_of_mem x h)
    simp only [CP.splitCh, ih ha2]
    simp [hx]

theorem length_dropWhileChars_le (p : Char → Bool) (l : List Char) :
    (l.dropWhile p).length ≤ l.length := by
  induction l with
  | nil => simp
  | cons x xs ih =>
    rw [List.dropWhile_cons]
    by_cases hx : p x = true <;> simp [hx] <;> omega

theorem trimChars_length_le (l : List Char) : (CP.trimChars l).length ≤ l.length := by
  unfold CP.trimChars
  calc (((l.dropWhile Char.isWhitespace).reverse.dropWhile Char.isWhitespace).reverse).length
      = ((l.dropWhile Char.isWhitespace).reverse.dropWhile Char.isWhitespace).length := by
        simp
    _ ≤ (l.dropWhile Char.isWhitespace).reverse.length :=
        length_dropWhileChars_le _ _
    _ = (l.dropWhile Char.isWhitespace).length := by simp
    _ ≤ l.length := length_dropWhileChars_le _ _

theorem trimChars_fixed_dropWhile {l : List Char} (h : CP.trimChars l = l) :
    l.dropWhile Char.isWhitespace = l
    ∧ l.reverse.dropWhile Char.isWhitespace = l.reverse := by
  have hsfx1 : l.dropWhile Char.isWhitespace <:+ l := List.dropWhile_suffix _
  have hsfx2 : (l.dropWhile Char.isWhitespace).reverse.dropWhile Char.isWhitespace
      <:+ (l.dropWhile Char.isWhitespace).reverse := List.dropWhile_suffix _
  have hlen : (CP.trimChars l).length = l.length := by rw [h]
  unfold CP.trimChars at hlen
  simp only [List.length_reverse] at hlen
  have h1len : (l.dropWhile Char.isWhitespace).length = l.length := by
    have a := List.IsSuffix.length_le hsfx2
    simp only [List.length_reverse] at a
    have b := List.IsSuffix.length_le hsfx1
    omega
  have h1 : l.dropWhile Char.isWhitespace = l := List.IsSuffix.eq_of_length hsfx1 h1len
  refine ⟨h1, ?_⟩
  rw [h1] at hlen hsfx2
  exact List.IsSuffix.eq_of_length hsfx2 (by simpa using hlen)

theorem trimChars_pad {x : List Char} (hx : CP.trimChars x = x) (hne : x ≠ []) :
    CP.trimChars (' ' :: x ++ [' ']) = x := by
  obtain ⟨h1, h2⟩ := trimChars_fixed_dropWhile hx
  have hxe : (x.dropWhile Char.isWhitespace).isEmpty = false := by
    rw [h1]; simpa [List.isEmpty_iff] using hne
  unfold CP.trimChars
  have hxe2 : x.isEmpty = false := by simpa [List.isEmpty_iff] using hne
  rw [List.cons_append, List.dropWhile_cons_of_pos (by decide)]
  simp only [List.dropWhile_append, hxe, h1, hxe2, Bool.false_eq_true, if_false]
  rw [List.reverse_append]
  simp only [List.reverse_cons, List.reverse_nil, List.nil_append, List.singleton_append]
  rw [List.dropWhile_cons_of_pos (by decide), h2, List.reverse_reverse]

theorem mk_data_eq (s : String) : String.mk s.data = s := rfl

theorem ne_empty_of_data {s : String} (h : s.data ≠ []) : s ≠ "" := by
  intro he
  rw [he] at h
  exact h rfl

theorem not_mem_pad {c : Char} {cell : List Char} (hc : c ≠ ' ') (h : c ∉ cell) :
    c ∉ (' ' :: cell ++ [' ']) := by
  intro hmem
  rcases List.mem_cons.mp hmem with h1 | h2
  · exact hc h1
  · rcases List.mem_append.mp h2 with h3 | h4
    · exact h h3
    · exact hc (List.mem_singleton.mp h4)

theorem splitCh_five_cells (c : Char) (a b d e f : List Char)
    (ha : c ∉ a) (hb : c ∉ b) (hd : c ∉ d) (he : c ∉ e) (hf : c ∉ f) :
    CP.splitCh c
        ([] ++ c :: (a ++ c :: (b ++ c :: (d ++ c :: (e ++ c :: (f ++ c :: ([] : List Char)))))))
      = [[], a, b, d, e, f, []] := by
  rw [splitCh_append_sep c [] _ (by simp),
      splitCh_append_sep c a _ ha,
      splitCh_append_sep c b _ hb,
      splitCh_append_sep c d _ hd,
      splitCh_append_sep c e _ he,
      splitCh_append_sep c f _ hf]
  rfl

theorem formatRow_data_shape (item : CP.ChecklistItem) (hst : item.status ≠ "") :
    (CP.formatChecklistRow item).data
      = [] ++ '|' :: ((' ' :: item.id.data ++ [' ']) ++ '|' :: ((' ' :: item.target.data ++ [' '])
        ++ '|' :: ((' ' :: item.priority.data ++ [' ']) ++ '|' :: ((' ' :: item.risk.data ++ [' '])
        ++ '|' :: ((' ' :: item.status.data ++ [' ']) ++ '|' :: ([] : List Char)))))) := by
  simp only [CP.formatChecklistRow, hst, if_false, String.data_append]
  simp [List.append_assoc]

theorem formatRow_data_wrap (item : CP.ChecklistItem) (hst : item.status ≠ "") :
    (CP.formatChecklistRow item).data
      = '|' :: ((' ' :: item.id.data ++ [' ', '|', ' '] ++ item.target.data ++ [' ', '|', ' ']
          ++ item.priority.data ++ [' ', '|', ' '] ++ item.risk.data ++ [' ', '|', ' ']
          ++ item.status.data ++ [' ']) ++ ['|']) := by
  simp only [CP.formatChecklistRow, hst, if_false, String.data_append]
  simp [List.append_assoc]

theorem trimChars_pipe_wrap (mid : List Char) :
    CP.trimChars ('|' :: (mid ++ ['|'])) = '|' :: (mid ++ ['|']) := by
  unfold CP.trimChars
  rw [List.dropWhile_cons_of_neg (by decide)]
  rw [show ('|' :: (mid ++ ['|'])).reverse = '|' :: (mid.reverse ++ ['|']) by
    simp [List.reverse_cons, List.reverse_append]]
  rw [List.dropWhile_cons_of_neg (by decide)]
  rw [show ('|' :: (mid.reverse ++ ['|'])).reverse = '|' :: (mid ++ ['|']) by
    simp [List.reverse_cons, List.reverse_append]]

theorem jsTrim_format_row (item : CP.ChecklistItem) (hst : item.status ≠ "") :
    CP.jsTrim (CP.formatChecklistRow item) = CP.formatChecklistRow item := by
  unfold CP.jsTrim
  rw [formatRow_data_wrap item hst, trimChars_pipe_wrap, ← formatRow_data_wrap item hst]

theorem jsTrim_pad_str (s : String) (h : CP.trimChars s.data = s.data) (hne : s.data ≠ []) :
    CP.jsTrim (String.mk (' ' :: s.data ++ [' '])) = s := by
  unfold CP.jsTrim
  show String.mk (CP.trimChars (' ' :: s.data ++ [' '])) = s
  rw [trimChars_pad h hne]

theorem parseTableRow_format (item : CP.ChecklistItem) (tier sectionName : String)
    (hid : CP.goodCell item.id) (htg : CP.goodCell item.target)
    (hpr : CP.goodCell item.priority) (hrk : CP.goodCell item.risk)
    (hst : CP.goodCell item.status)
    (hid2 : item.id ≠ "ID") (hid3 : item.id ≠ "----") :
    CP.parseTableRow (CP.formatChecklistRow item) tier sectionName
      = [{ item with tier := tier, sectionName := sectionName }] := by
  have hstne : item.status ≠ "" := ne_empty_of_data hst.1
  have hsplit : CP.jsSplit1 '|' (CP.formatChecklistRow item)
      = [String.mk [], String.mk (' ' :: item.id.data ++ [' ']),
         String.mk (' ' :: item.target.data ++ [' ']),
         String.mk (' ' :: item.priority.data ++ [' ']),
         String.mk (' ' :: item.risk.data ++ [' ']),
         String.mk (' ' :: item.status.data ++ [' ']), String.mk []] := by
    unfold CP.jsSplit1
    rw [formatRow_data_shape item hstne,
        splitCh_five_cells '|' _ _ _ _ _
          (not_mem_pad (by decide) hid.2.2.1)
          (not_mem_pad (by decide) htg.2.2.1)
          (not_mem_pad (by decide) hpr.2.2.1)
          (not_mem_pad (by decide) hrk.2.2.1)
          (not_mem_pad (by decide) hst.2.2.1)]
    rfl
  have hmap : (CP.jsSplit1 '|' (CP.formatChecklistRow item)).map CP.jsTrim
      = ["", item.id, item.target, item.priority, item.risk, item.status, ""] := by
    rw [hsplit]
    simp only [List.map]
    rw [jsTrim_pad_str item.id hid.2.1 hid.1,
        jsTrim_pad_str item.target htg.2.1 htg.1,
        jsTrim_pad_str item.priority hpr.2.1 hpr.1,
        jsTrim_pad_str item.risk hrk.2.1 hrk.1,
        jsTrim_pad_str item.status hst.2.1 hst.1]
    rfl
  have hfilter : (((CP.jsSplit1 '|' (CP.formatChecklistRow item)).map CP.jsTrim).filter
        (fun s => s ≠ ""))
      = [item.id, item.target, item.priority, item.risk, item.status] := by
    rw [hmap]
    simp [List.filter, ne_empty_of_data hid.1, ne_empty_of_data htg.1,
      ne_empty_of_data hpr.1, ne_empty_of_data hrk.1, ne_empty_of_data hst.1]
  unfold CP.parseTableRow
  rw [hfilter]
  simp only [List.length_cons, List.length_nil]
  rw [if_pos (by omega), if_neg (by simp [hid2, hid3])]
  simp [List.getD]

theorem not_mem_row_shape {c : Char} {l1 l2 l3 l4 l5 : List Char}
    (hc1 : c ≠ '|') (hc2 : c ≠ ' ')
    (h1 : c ∉ l1) (h2 : c ∉ l2) (h3 : c ∉ l3) (h4 : c ∉ l4) (h5 : c ∉ l5) :
    c ∉ ([] ++ '|' :: ((' ' :: l1 ++ [' ']) ++ '|' :: ((' ' :: l2 ++ [' '])
      ++ '|' :: ((' ' :: l3 ++ [' ']) ++ '|' :: ((' ' :: l4 ++ [' '])
      ++ '|' :: ((' ' :: l5 ++ [' ']) ++ '|' :: ([] : List Char))))))) := by
  have k1 := not_mem_pad hc2 h1
  have k2 := not_mem_pad hc2 h2
  have k3 := not_mem_pad hc2 h3
  have k4 := not_mem_pad hc2 h4
  have k5 := not_mem_pad hc2 h5
  intro hmem
  rw [List.nil_append] at hmem
  rcases List.mem_cons.mp hmem with h | hmem
  · exact hc1 h
  rcases List.mem_append.mp hmem with h | hmem
  · exact k1 h
  rcases List.mem_cons.mp hmem with h | hmem
  · exact hc1 h
  rcases List.mem_append.mp hmem with h | hmem
  · exact k2 h
  rcases List.mem_cons.mp hmem with h | hmem
  · exact hc1 h
  rcases List.mem_append.mp hmem with h | hmem
  · exact k3 h
  rcases List.mem_cons.mp hmem with h | hmem
  · exact hc1 h
  rcases List.mem_append.mp hmem with h | hmem
  · exact k4 h
  rcases List.mem_cons.mp hmem with h | hmem
  · exact hc1 h
  rcases List.mem_append.mp hmem with h | hmem
  · exact k5 h
  rcases List.mem_cons.mp hmem with h | hmem
  · exact hc1 h
  exact absurd hmem (List.not_mem_nil c)

/-- C8 (amended): for a checklist item whose five cells are non-empty, already
trimmed, pipe-free and newline-free, whose id is neither the header label nor
the separator pattern, and whose formatted row does not itself contain both
table-header tokens, parsing the formatted row below the canonical table
header recovers exactly the item (with the empty tier and subsection context
of a bare document); re-formatting the recovered item reproduces the row
byte-identically. -/
theorem c8_round_trip_amended (item : CP.ChecklistItem)
    (hid : CP.goodCell item.id) (htg : CP.goodCell item.target)
    (hpr : CP.goodCell item.priority) (hrk : CP.goodCell item.risk)
    (hst : CP.goodCell item.status)
    (hid2 : item.id ≠ "ID") (hid3 : item.id ≠ "----")
    (hhdr : (CP.jsIncludes (CP.formatChecklistRow item) "| ID |"
        && CP.jsIncludes (CP.formatChecklistRow item) "| Target |") = false) :
    CP.parseChecklist (CP.checklistTableHeader ++ "\n" ++ CP.formatChecklistRow item)
      = [{ item with tier := "", sectionName := "" }]
    ∧ CP.formatChecklistRow { item with tier := "", sectionName := "" }
      = CP.formatChecklistRow item := by
  have hstne : item.status ≠ "" := ne_empty_of_data hst.1
  refine ⟨?_, rfl⟩
  have hnonl : '\n' ∉ (CP.formatChecklistRow item).data := by
    rw [formatRow_data_shape item hstne]
    exact not_mem_row_shape (by decide) (by decide)
      hid.2.2.2 htg.2.2.2 hpr.2.2.2 hrk.2.2.2 hst.2.2.2
  have hlines : CP.jsSplit1 '\n' (CP.checklistTableHeader ++ "\n" ++ CP.formatChecklistRow item)
      = [CP.checklistTableHeader, CP.formatChecklistRow item] := by
    unfold CP.jsSplit1
    have hdata : (CP.checklistTableHeader ++ "\n" ++ CP.formatChecklistRow item).data
        = CP.checklistTableHeader.data ++ '\n' :: (CP.formatChecklistRow item).data := by
      rw [String.data_append, String.data_append,
          show ("\n" : String).data = ['\n'] from rfl]
      simp [List.append_assoc]
    rw [hdata, splitCh_append_sep _ _ _ (by decide), splitCh_no_sep _ _ hnonl]
    rfl
  have hnt : CP.jsStartsWith (CP.formatChecklistRow item) "## Tier " = false := by
    unfold CP.jsStartsWith
    rw [formatRow_data_wrap item hstne,
        show ("## Tier ").data = '#' :: ['#', ' ', 'T', 'i', 'e', 'r', ' '] from rfl,
        List.isPrefixOf_cons₂]
    simp [show (('#' : Char) == '|') = false from by decide]
  have hns : CP.jsStartsWith (CP.formatChecklistRow item) "### " = false := by
    unfold CP.jsStartsWith
    rw [formatRow_data_wrap item hstne,
        show ("### ").data = '#' :: ['#', '#', ' '] from rfl,
        List.isPrefixOf_cons₂]
    simp [show (('#' : Char) == '|') = false from by decide]
  have hps : CP.jsStartsWith (CP.formatChecklistRow item) "|" = true := by
    unfold CP.jsStartsWith
    rw [formatRow_data_wrap item hstne, show ("|" : String).data = ['|'] from rfl,
        List.isPrefixOf_cons₂]
    simp [List.isPrefixOf]
  have htrim := jsTrim_format_row item hstne
  unfold CP.parseChecklist
  rw [hlines]
  simp only [CP.parseLinesAux,
    show CP.jsStartsWith CP.checklistTableHeader "## Tier " = false from by decide,
    show CP.jsStartsWith CP.checklistTableHeader "### " = false from by decide,
    show (CP.jsIncludes CP.checklistTableHeader "| ID |"
      && CP.jsIncludes CP.checklistTableHeader "| Target |") = true from by decide,
    hnt, hns, hhdr, htrim, hps, Bool.false_eq_true, Bool.true_and, if_false, if_true,
    Bool.and_self]
  rw [parseTableRow_format item "" "" hid htg hpr hrk hst hid2 hid3]
  simp [CP.parseLinesAux]

/-- C8 counterexample: format and parse are not mutually inverse as claimed.
An item with an empty target formats to a row whose empty cell is dropped by
the parser's emptiness filter, so the row parses to no item at all (rather
than recovering the item's fields). -/
theorem c8_round_trip_counterexample :
    CP.formatChecklistRow ⟨"A-1", "", "P1", "Low", "☐ Not Started", "", ""⟩
      = "| A-1 |  | P1 | Low | ☐ Not Started |"
    ∧ CP.parseChecklist (CP.checklistTableHeader ++ "\n"
        ++ CP.formatChecklistRow ⟨"A-1", "", "P1", "Low", "☐ Not Started", "", ""⟩) = [] := by
  constructor
  · decide
  · decide

/-- Witness for C8 (amended) at a concrete well-formed item. -/
theorem c8_round_trip_amended_witness :
    CP.parseChecklist (CP.checklistTableHeader ++ "\n"
        ++ CP.formatChecklistRow
            ⟨"SEC-004", "Probe transfer auth", "P0", "High", "☐ Not Started", "", ""⟩)
      = [⟨"SEC-004", "Probe transfer auth", "P0", "High", "☐ Not Started", "", ""⟩]
    ∧ CP.formatChecklistRow
        ⟨"SEC-004", "Probe transfer auth", "P0", "High", "☐ Not Started", "", ""⟩
      = "| SEC-004 | Probe transfer auth | P0 | High | ☐ Not Started |" := by
  have h := c8_round_trip_amended
    ⟨"SEC-004", "Probe transfer auth", "P0", "High", "☐ Not Started", "", ""⟩
    (by decide) (by decide) (by decide) (by decide) (by decide)
    (by decide) (by decide) (by decide)
  exact ⟨h.1, by decide⟩

theorem splitCh_joinCh (c : Char) :
    ∀ ls : List (List Char), ls ≠ [] → (∀ l ∈ ls, c ∉ l) →
      CP.splitCh c (CP.joinCh c ls) = ls
  | [], hne, _ => absurd rfl hne
  | [x], _, h => by
    simp only [CP.joinCh]
    exact splitCh_no_sep c x (h x (List.mem_singleton_self x))
  | x :: y :: rest, _, h => by
    simp only [CP.joinCh]
    rw [splitCh_append_sep c x _ (h x (List.mem_cons_self x _))]
    rw [splitCh_joinCh c (y :: rest) (by simp) (fun l hl => h l (List.mem_cons_of_mem x hl))]

theorem jsSplit1_join (c : Char) (lines : List String) (hne : lines ≠ [])
    (h : ∀ l ∈ lines, c ∉ l.data) :
    CP.jsSplit1 c (CP.jsJoin1 c lines) = lines := by
  unfold CP.jsSplit1 CP.jsJoin1
  rw [show (String.mk (CP.joinCh c (lines.map String.data))).data
      = CP.joinCh c (lines.map String.data) from rfl]
  rw [splitCh_joinCh c (lines.map String.data)
    (by simpa using hne)
    (by intro l hl; obtain ⟨s, hs, rfl⟩ := List.mem_map.mp hl; exact h s hs)]
  rw [List.map_map, show (String.mk ∘ String.data) = id from funext fun s => rfl,
      List.map_id]

/-- C4 (amended): updateChecklistItemStatus selects lines by the substring
test (trimmed line starts with a pipe and contains the space-padded id), not
by first-cell equality.  For a document in which exactly one line matches
that test and that line splits into at least six pipe-separated parts, the
update rewrites only part 5 (the status cell) of that line to the padded new
status and leaves every other line and every other part byte-identical. -/
theorem c4_update_status_amended (pre post : List String) (row itemId newStatus : String)
    (hrow : (CP.jsStartsWith (CP.jsTrim row) "|"
        && CP.jsIncludes (CP.jsTrim row) (" " ++ itemId ++ " ")) = true)
    (hlen : 6 ≤ (CP.jsSplit1 '|' row).length)
    (hpre : ∀ l ∈ pre, (CP.jsStartsWith (CP.jsTrim l) "|"
        && CP.jsIncludes (CP.jsTrim l) (" " ++ itemId ++ " ")) = false)
    (hpost : ∀ l ∈ post, (CP.jsStartsWith (CP.jsTrim l) "|"
        && CP.jsIncludes (CP.jsTrim l) (" " ++ itemId ++ " ")) = false)
    (hnl : ∀ l ∈ pre ++ [row] ++ post, '\n' ∉ l.data) :
    CP.updateChecklistItemStatus (CP.jsJoin1 '\n' (pre ++ [row] ++ post)) itemId newStatus
      = CP.jsJoin1 '\n' (pre
          ++ [CP.jsJoin1 '|' ((CP.jsSplit1 '|' row).set 5 (" " ++ newStatus ++ " "))]
          ++ post) := by
  unfold CP.updateChecklistItemStatus
  rw [jsSplit1_join '\n' (pre ++ [row] ++ post) (by simp) hnl]
  congr 1
  rw [List.map_append, List.map_append]
  congr 1
  · congr 1
    · conv_rhs => rw [← List.map_id pre]
      exact List.map_congr_left (fun l hl => by
        unfold CP.updateChecklistLine
        rw [hpre l hl]
        simp)
    · simp only [List.map_cons, List.map_nil]
      have hline : CP.updateChecklistLine itemId newStatus row
          = CP.jsJoin1 '|' ((CP.jsSplit1 '|' row).set 5 (" " ++ newStatus ++ " ")) := by
        unfold CP.updateChecklistLine
        rw [hrow, if_pos rfl, if_pos hlen]
      rw [hline]
  · conv_rhs => rw [← List.map_id post]
    exact List.map_congr_left (fun l hl => by
      unfold CP.updateChecklistLine
      rw [hpost l hl]
      simp)

/-- C4 counterexample: updating A-1 also rewrites the status cell of the B-2
row, because that row's target cell mentions " A-1 " and matching is by
substring, not by first-cell equality; so a line other than A-1's row is not
left byte-identical. -/
theorem c4_update_status_counterexample :
    (CP.jsSplit1 '\n' (CP.updateChecklistItemStatus
        "| A-1 | target one | P0 | High | ☐ Not Started |\n| B-2 | follow A-1 result | P1 | Low | ☐ Not Started |"
        "A-1" "✅ Completed")).getD 1 ""
      = "| B-2 | follow A-1 result | P1 | Low | ✅ Completed |"
    ∧ ("| B-2 | follow A-1 result | P1 | Low | ✅ Completed |"
        ≠ "| B-2 | follow A-1 result | P1 | Low | ☐ Not Started |") := by
  constructor
  · decide
  · decide

/-- Witness for C4 (amended) on a concrete three-line document whose padded
id occurs only in its own row. -/
theorem c4_update_status_amended_witness :
    CP.updateChecklistItemStatus
        "| ID | Target | Priority | Risk | Status |\n| A-1 | probe | P0 | High | ☐ Not Started |\ndone"
        "A-1" "✅ Completed"
      = "| ID | Target | Priority | Risk | Status |\n| A-1 | probe | P0 | High | ✅ Completed |\ndone" := by
  have h := c4_update_status_amended
    ["| ID | Target | Priority | Risk | Status |"] ["done"]
    "| A-1 | probe | P0 | High | ☐ Not Started |" "A-1" "✅ Completed"
    (by decide) (by decide) (by decide) (by decide) (by decide)
  have hdoc : CP.jsJoin1 '\n' (["| ID | Target | Priority | Risk | Status |"]
      ++ ["| A-1 | probe | P0 | High | ☐ Not Started |"] ++ ["done"])
      = "| ID | Target | Priority | Risk | Status |\n| A-1 | probe | P0 | High | ☐ Not Started |\ndone" := by
    decide
  rw [hdoc] at h
  exact h.trans (by decide)

theorem isPrefixOf_append_self (l b : List Char) : l.isPrefixOf (l ++ b) = true := by
  induction l with
  | nil => simp [List.isPrefixOf]
  | cons x xs ih => simp [List.isPrefixOf_cons₂, ih]

theorem hasSub_parts (pat a b : List Char) : CP.hasSub pat (a ++ (pat ++ b)) = true := by
  induction a with
  | nil =>
    cases pat with
    | nil => cases b <;> simp [CP.hasSub, List.isPrefixOf]
    | cons p ps =>
      simp only [List.nil_append, List.cons_append, CP.hasSub, List.append_eq]
      rw [show p :: (ps ++ b) = (p :: ps) ++ b from rfl, isPrefixOf_append_self]
      simp
  | cons x a2 ih =>
    simp only [List.cons_append, CP.hasSub, List.append_eq, ih, Bool.or_true]

set_option maxRecDepth 100000 in
theorem synthesis_prompt_requests (brief content : String) (n : Nat) :
    CP.jsIncludes (CP.buildBacklogSynthesisPrompt brief content n)
      ("Generate " ++ toString n ++ " brand-new") = true := by
  unfold CP.jsIncludes
  have hdata : (CP.buildBacklogSynthesisPrompt brief content n).data
      = ((if CP.jsTrim brief ≠ "" then
            "You are an autonomous reliability planner. When the existing backlog runs dry you must synthesize new checklist rows that feel like thoughtful follow-ons, not duplicates.\n\nContext about the system under test (SUT):\n"
              ++ CP.jsTrim brief
          else
            ("You are an autonomous reliability planner. When the existing backlog runs dry you must synthesize new checklist rows that feel like thoughtful follow-ons, not duplicates.\n\nContext about the system under test (SUT):\nMission brief not provided." : String)).data
          ++ ("\n\nCurrent checklist markdown (for reference, do not rewrite existing rows):\n").data
          ++ content.data ++ ("\n\n").data)
        ++ (("Generate " ++ toString n ++ " brand-new").data
          ++ (" checklist rows that are scoped to one autonomous run each. Keep the same five-column structure (ID, Target, Priority, Risk, Status) and prefer concrete targets over placeholders.\n\nRespond ONLY with JSON using the shape:\n\x7b\n  \"items\": [\n    \x7b\"id\": \"INF-123\", \"target\": \"...\", \"priority\": \"P1\", \"risk\": \"High\", \"status\": \"☐ Not Started\"\x7d\n  ]\n\x7d").data) := by
    have e1 : ("\n\nGenerate " : String).data
        = ("\n\n" : String).data ++ ("Generate " : String).data := rfl
    have e2 : (" brand-new checklist rows that are scoped to one autonomous run each. Keep the same five-column structure (ID, Target, Priority, Risk, Status) and prefer concrete targets over placeholders.\n\nRespond ONLY with JSON using the shape:\n\x7b\n  \"items\": [\n    \x7b\"id\": \"INF-123\", \"target\": \"...\", \"priority\": \"P1\", \"risk\": \"High\", \"status\": \"☐ Not Started\"\x7d\n  ]\n\x7d" : String).data
        = (" brand-new" : String).data
          ++ (" checklist rows that are scoped to one autonomous run each. Keep the same five-column structure (ID, Target, Priority, Risk, Status) and prefer concrete targets over placeholders.\n\nRespond ONLY with JSON using the shape:\n\x7b\n  \"items\": [\n    \x7b\"id\": \"INF-123\", \"target\": \"...\", \"priority\": \"P1\", \"risk\": \"High\", \"status\": \"☐ Not Started\"\x7d\n  ]\n\x7d" : String).data := rfl
    simp only [CP.buildBacklogSynthesisPrompt, String.data_append, e1, e2]
    simp only [List.append_assoc, List.cons_append, List.nil_append]
  rw [hdata]
  exact hasSub_parts _ _ _

/-- C7: backlog synthesis runs only in infinite mode and only when fewer
items remain than the batch size; it then requests exactly
needed = batchSize - remaining.length rows (the synthesis prompt is built
with that count and asks for it verbatim), and at most needed coerced items
are appended (the candidate list is truncated to needed before appending).
In finite mode, or when remaining is at least the batch size, no synthesis
agent runs and the checklist is unchanged. -/
theorem c7_backlog_synthesis (env : CP.Env) (content : String) :
    (env.mode = CP.Mode.finite →
      CP.extendChecklistIfNeeded env content = .ok (false, content, [], []))
    ∧ (env.batchSize ≤ (CP.getRemainingChecklistItems (CP.parseChecklist content)).length →
      CP.extendChecklistIfNeeded env content = .ok (false, content, [], []))
    ∧ (env.mode = CP.Mode.infinite →
      (CP.getRemainingChecklistItems (CP.parseChecklist content)).length < env.batchSize →
      ∀ extended newContent appended effs,
        CP.extendChecklistIfNeeded env content = .ok (extended, newContent, appended, effs) →
          appended.length
              ≤ env.batchSize - (CP.getRemainingChecklistItems (CP.parseChecklist content)).length
          ∧ CP.Effect.spawnAgent "infinite-backlog"
              (CP.buildBacklogSynthesisPrompt env.missionBrief content
                (env.batchSize
                  - (CP.getRemainingChecklistItems (CP.parseChecklist content)).length)) ∈ effs
          ∧ CP.jsIncludes
              (CP.buildBacklogSynthesisPrompt env.missionBrief content
                (env.batchSize
                  - (CP.getRemainingChecklistItems (CP.parseChecklist content)).length))
              ("Generate "
                ++ toString (env.batchSize
                  - (CP.getRemainingChecklistItems (CP.parseChecklist content)).length)
                ++ " brand-new") = true
          ∧ (extended = true →
              newContent = CP.appendRowsToChecklist content appended
                (CP.buildPrefixTierMap (CP.parseChecklist content)))
          ∧ (extended = false → newContent = content)) := by
  refine ⟨?_, ?_, ?_⟩
  · intro hm
    unfold CP.extendChecklistIfNeeded
    rw [if_pos (by rw [hm]; simp)]
  · intro hge
    unfold CP.extendChecklistIfNeeded
    by_cases hm : env.mode = CP.Mode.infinite
    · rw [if_neg (by simp [hm])]
      rw [if_pos (by omega)]
    · rw [if_pos (by simpa using hm)]
  · intro hm hlt extended newContent appended effs heq
    unfold CP.extendChecklistIfNeeded at heq
    rw [if_neg (by simp [hm])] at heq
    rw [if_neg (by omega)] at heq
    rcases hrun : CP.runAgentFor env "infinite-backlog" with ⟨o, cnt⟩
    rw [hrun] at heq
    cases o with
    | err e => exact absurd heq (by simp)
    | ok output =>
      dsimp only [] at heq
      by_cases hg : CP.coerceGeneratedItems env.now (CP.extractJsonPayload output) = []
      · rw [if_pos hg] at heq
        simp only [Except.ok.injEq, Prod.mk.injEq] at heq
        obtain ⟨h1, h2, h3, h4⟩ := heq
        subst h1 h2 h3 h4
        refine ⟨by simp, by simp, synthesis_prompt_requests _ _ _, ?_, fun _ => rfl⟩
        intro hfalse
        exact absurd hfalse (by simp)
      · rw [if_neg hg] at heq
        simp only [Except.ok.injEq, Prod.mk.injEq] at heq
        obtain ⟨h1, h2, h3, h4⟩ := heq
        subst h1 h2 h3 h4
        refine ⟨?_, by simp, synthesis_prompt_requests _ _ _, fun _ => rfl, ?_⟩
        · simpa using List.length_take_le _ _
        · intro hfalse
          exact absurd hfalse (by simp)

/-- Witness for C7: in infinite mode with three remaining items and batch
size five, the synthesis agent is asked for exactly two rows and a
three-item response is truncated to two appended rows; in finite mode
nothing happens. -/
theorem c7_backlog_synthesis_witness :
    ∃ extended newContent appended effs,
      CP.extendChecklistIfNeeded
        { mode := .infinite
          dryRun := false
          batchSize := 5
          agentMaxRetries := 3
          missionBrief := ""
          agentSystemPrompt := ""
          tierReportPromptTemplate := none
          attemptOracle := fun _ _ =>
            (false, 0, "```json\n\x7b\"items\": [\x7b\"id\": \"INF-1\"\x7d, \x7b\"id\": \"INF-2\"\x7d, \x7b\"id\": \"INF-3\"\x7d]\x7d\n```")
          now := 9 }
        "## Tier 1: A\n| ID | Target | Priority | Risk | Status |\n|----|--------|----------|------|--------|\n| T-1 | a | P0 | High | ☐ Not Started |\n| T-2 | b | P0 | High | ☐ Not Started |\n| T-3 | c | P0 | High | ☐ Not Started |"
        = .ok (extended, newContent, appended, effs)
      ∧ appended.length ≤ 2 := by
  set_option maxRecDepth 1000000 in
  have hrun : CP.extendChecklistIfNeeded
      { mode := .infinite
        dryRun := false
        batchSize := 5
        agentMaxRetries := 3
        missionBrief := ""
        agentSystemPrompt := ""
        tierReportPromptTemplate := none
        attemptOracle := fun _ _ =>
          (false, 0, "```json\n\x7b\"items\": [\x7b\"id\": \"INF-1\"\x7d, \x7b\"id\": \"INF-2\"\x7d, \x7b\"id\": \"INF-3\"\x7d]\x7d\n```")
        now := 9 }
      "## Tier 1: A\n| ID | Target | Priority | Risk | Status |\n|----|--------|----------|------|--------|\n| T-1 | a | P0 | High | ☐ Not Started |\n| T-2 | b | P0 | High | ☐ Not Started |\n| T-3 | c | P0 | High | ☐ Not Started |"
      = .ok (true,
        CP.appendRowsToChecklist
          "## Tier 1: A\n| ID | Target | Priority | Risk | Status |\n|----|--------|----------|------|--------|\n| T-1 | a | P0 | High | ☐ Not Started |\n| T-2 | b | P0 | High | ☐ Not Started |\n| T-3 | c | P0 | High | ☐ Not Started |"
          [⟨"INF-1", "Backlog scenario", "P2", "Moderate", "☐ Not Started", CP.fallbackBacklogTier, ""⟩,
           ⟨"INF-2", "Backlog scenario", "P2", "Moderate", "☐ Not Started", CP.fallbackBacklogTier, ""⟩]
          [("T", "Tier 1: A")],
        [⟨"INF-1", "Backlog scenario", "P2", "Moderate", "☐ Not Started", CP.fallbackBacklogTier, ""⟩,
         ⟨"INF-2", "Backlog scenario", "P2", "Moderate", "☐ Not Started", CP.fallbackBacklogTier, ""⟩],
        [CP.Effect.spawnAgent "infinite-backlog"
          (CP.buildBacklogSynthesisPrompt ""
            "## Tier 1: A\n| ID | Target | Priority | Risk | Status |\n|----|--------|----------|------|--------|\n| T-1 | a | P0 | High | ☐ Not Started |\n| T-2 | b | P0 | High | ☐ Not Started |\n| T-3 | c | P0 | High | ☐ Not Started |"
            2),
         CP.Effect.appendRows
          [⟨"INF-1", "Backlog scenario", "P2", "Moderate", "☐ Not Started", CP.fallbackBacklogTier, ""⟩,
           ⟨"INF-2", "Backlog scenario", "P2", "Moderate", "☐ Not Started", CP.fallbackBacklogTier, ""⟩],
         CP.Effect.writeFile CP.checklistPath
          (CP.appendRowsToChecklist
            "## Tier 1: A\n| ID | Target | Priority | Risk | Status |\n|----|--------|----------|------|--------|\n| T-1 | a | P0 | High | ☐ Not Started |\n| T-2 | b | P0 | High | ☐ Not Started |\n| T-3 | c | P0 | High | ☐ Not Started |"
            [⟨"INF-1", "Backlog scenario", "P2", "Moderate", "☐ Not Started", CP.fallbackBacklogTier, ""⟩,
             ⟨"INF-2", "Backlog scenario", "P2", "Moderate", "☐ Not Started", CP.fallbackBacklogTier, ""⟩]
            [("T", "Tier 1: A")])]) := by decide
  refine ⟨_, _, _, _, hrun, ?_⟩
  have h := (c7_backlog_synthesis _ _).2.2 rfl (by decide) _ _ _ _ hrun
  simpa using h.1

/-- C6 counterexample: when a fenced block is present but its contents fail
to parse, extractJsonPayload returns null without any fallback, although the
raw text contains a balanced JSON object that the spec's first-balanced-span
fallback would recover. -/
theorem c6_payload_extraction_counterexample :
    (CP.extractJsonPayload "```json oops``` \x7b\"items\": []\x7d").isSome = false
    ∧ (CP.extractJsonPayloadSpec "```json oops``` \x7b\"items\": []\x7d").isSome = true
    ∧ CP.firstBalancedBraceSpan "```json oops``` \x7b\"items\": []\x7d"
        = some "\x7b\"items\": []\x7d" := by
  refine ⟨by decide, by decide, by decide⟩

/-- C6 (amended): backlog-payload extraction takes the fenced block if
present (json-labelled preferred, else any fence), else the whole text, and
parses the trimmed candidate; when that parse fails, the fallback runs only
if no fenced block was found, and it parses the span from the first opening
brace to the LAST closing brace of the raw text (the greedy regex, not the
first balanced span); when everything fails the payload is null, and a null
payload makes the synthesis cycle yield zero items and return without
crashing (nothing appended, no error). -/
theorem c6_payload_extraction_amended (text : String) (hne : text ≠ "") :
    (∀ cap, CP.fencedMatch text = some cap →
      CP.extractJsonPayload text = CP.jsonParse (CP.jsTrim cap))
    ∧ (CP.fencedMatch text = none →
      CP.jsonParse (CP.jsTrim text) = none →
      CP.extractJsonPayload text = (CP.braceSpan text).bind CP.jsonParse)
    ∧ (∀ env content k, CP.extractJsonPayload text = none →
      CP.runAgentFor env "infinite-backlog" = (.ok text, k) →
      env.mode = CP.Mode.infinite →
      env.batchSize - (CP.getRemainingChecklistItems (CP.parseChecklist content)).length ≠ 0 →
      CP.extendChecklistIfNeeded env content
        = .ok (false, content, [],
            [CP.Effect.spawnAgent "infinite-backlog"
              (CP.buildBacklogSynthesisPrompt env.missionBrief content
                (env.batchSize
                  - (CP.getRemainingChecklistItems (CP.parseChecklist content)).length))])) := by
  refine ⟨?_, ?_, ?_⟩
  · intro cap hcap
    unfold CP.extractJsonPayload
    rw [if_neg hne, hcap]
    dsimp only [Option.getD]
    cases hp : CP.jsonParse (CP.jsTrim cap) with
    | some v => rfl
    | none => rfl
  · intro hfen hparse
    unfold CP.extractJsonPayload
    rw [if_neg hne, hfen]
    dsimp only [Option.getD]
    rw [hparse]
    cases hb : CP.braceSpan text with
    | some blk => rfl
    | none => rfl
  · intro env content k hnone hrun hm hneed
    unfold CP.extendChecklistIfNeeded
    rw [if_neg (by simp [hm])]
    rw [if_neg hneed]
    rw [hrun]
    dsimp only []
    rw [hnone]
    rfl

/-- Witness for C6 (amended): a failing fenced candidate yields null with no
fallback; without a fence, the greedy brace span is parsed. -/
theorem c6_payload_extraction_amended_witness :
    (CP.extractJsonPayload "```json oops``` \x7b\"items\": []\x7d").isSome = false
    ∧ (CP.extractJsonPayload "noise \x7b\"items\": []\x7d").isSome = true := by
  constructor
  · have h := (c6_payload_extraction_amended "```json oops``` \x7b\"items\": []\x7d"
      (by decide)).1 " oops" (by decide)
    rw [h]
    decide
  · have h := (c6_payload_extraction_amended "noise \x7b\"items\": []\x7d" (by decide)).2.1
      (by decide) (by rfl)
    rw [h]
    decide

theorem countWritesTo_append (p : String) (a b : List CP.Effect) :
    CP.countWritesTo p (a ++ b) = CP.countWritesTo p a + CP.countWritesTo p b := by
  unfold CP.countWritesTo
  rw [List.filter_append, List.length_append]

theorem countWritesTo_nil (p : String) : CP.countWritesTo p [] = 0 := rfl

theorem countWritesTo_mkdir (p d : String) :
    CP.countWritesTo p [CP.Effect.mkdir d] = 0 := rfl

theorem countWritesTo_spawn (p l pr : String) :
    CP.countWritesTo p [CP.Effect.spawnAgent l pr] = 0 := rfl

theorem countWritesTo_write (p q c : String) :
    CP.countWritesTo p [CP.Effect.writeFile q c] = if q = p then 1 else 0 := by
  unfold CP.countWritesTo
  by_cases h : q = p
  · simp [List.filter, h]
  · have hb : (q == p) = false := by simp [h]
    simp [List.filter, hb, h]

theorem setAssoc_any_self (m : List (String × String)) (k v : String) :
    ((CP.setAssoc m k v).any (fun f => f.1 == k)) = true := by
  unfold CP.setAssoc
  split
  case isTrue h =>
    rw [List.any_map, List.any_eq_true]
    rw [List.any_eq_true] at h
    obtain ⟨x, hx, hxk⟩ := h
    refine ⟨x, hx, ?_⟩
    simp only [Function.comp_apply]
    rw [if_pos hxk]
    simp
  case isFalse h =>
    simp [List.any_append]

theorem setAssoc_any_preserve (m : List (String × String)) (k v p : String)
    (h : m.any (fun f => f.1 == p) = true) :
    ((CP.setAssoc m k v).any (fun f => f.1 == p)) = true := by
  unfold CP.setAssoc
  split
  case isTrue htrue =>
    rw [List.any_map, List.any_eq_true]
    rw [List.any_eq_true] at h
    obtain ⟨x, hx, hxp⟩ := h
    refine ⟨x, hx, ?_⟩
    simp only [Function.comp_apply]
    by_cases hxk : (x.1 == k) = true
    · rw [if_pos hxk]
      have h1 : x.1 = k := by simpa using hxk
      have h2 : x.1 = p := by simpa using hxp
      simp [← h1, h2]
    · rw [if_neg (by simpa using hxk)]
      exact hxp
  case isFalse htrue =>
    simp [List.any_append, h]

theorem setAssoc_any_absent (m : List (String × String)) (k v p : String)
    (hne : p ≠ k) (h : m.any (fun f => f.1 == p) = false) :
    ((CP.setAssoc m k v).any (fun f => f.1 == p)) = false := by
  unfold CP.setAssoc
  split
  case isTrue htrue =>
    rw [List.any_map]
    rw [List.any_eq_false] at h ⊢
    intro x hx
    simp only [Function.comp_apply]
    by_cases hxk : (x.1 == k) = true
    · rw [if_pos hxk]
      simp [Ne.symm hne]
    · rw [if_neg (by simpa using hxk)]
      exact h x hx
  case isFalse htrue =>
    rw [List.any_append]
    simp only [h, Bool.false_or, List.any_cons, List.any_nil, Bool.or_false]
    simp [Ne.symm hne]

theorem find?_mapSet_ne (m : List (String × String)) (k v p : String) (hne : p ≠ k) :
    ((m.map (fun f => if f.1 == k then (k, v) else f)).find? (fun f => f.1 == p))
      = m.find? (fun f => f.1 == p) := by
  induction m with
  | nil => rfl
  | cons x m2 ih =>
    simp only [List.map_cons]
    by_cases hxk : (x.1 == k) = true
    · rw [if_pos hxk]
      have hx1 : x.1 = k := by simpa using hxk
      rw [List.find?_cons_of_neg _ (by simp [Ne.symm hne]),
          List.find?_cons_of_neg _ (by simp [hx1, Ne.symm hne])]
      exact ih
    · rw [if_neg hxk]
      by_cases hxp : (x.1 == p) = true
      · rw [@List.find?_cons_of_pos _ (fun f => f.1 == p) x _ hxp,
            @List.find?_cons_of_pos _ (fun f => f.1 == p) x _ hxp]
      · rw [List.find?_cons_of_neg _ (by simpa using hxp),
            List.find?_cons_of_neg _ (by simpa using hxp)]
        exact ih

theorem find?_appendSingle_ne (m : List (String × String)) (k v p : String) (hne : p ≠ k) :
    ((m ++ [(k, v)]).find? (fun f => f.1 == p)) = m.find? (fun f => f.1 == p) := by
  induction m with
  | nil =>
    simp only [List.nil_append]
    rw [List.find?_cons_of_neg _ (by simp [Ne.symm hne])]
  | cons x m2 ih =>
    by_cases hxp : (x.1 == p) = true
    · rw [List.cons_append, @List.find?_cons_of_pos _ (fun f => f.1 == p) x _ hxp,
          @List.find?_cons_of_pos _ (fun f => f.1 == p) x _ hxp]
    · rw [List.cons_append, List.find?_cons_of_neg _ (by simpa using hxp),
          List.find?_cons_of_neg _ (by simpa using hxp)]
      exact ih

theorem lookupFile_writeFileW_ne (w : CP.World) (q c p : String) (hne : p ≠ q) :
    CP.lookupFile (CP.writeFileW w q c) p = CP.lookupFile w p := by
  unfold CP.lookupFile CP.writeFileW CP.setAssoc
  simp only
  split
  · rw [find?_mapSet_ne _ _ _ _ hne]
  · rw [find?_appendSingle_ne _ _ _ _ hne]

theorem fileExists_writeFileW_self (w : CP.World) (p c : String) :
    CP.fileExists (CP.writeFileW w p c) p = true := by
  unfold CP.fileExists CP.writeFileW
  exact setAssoc_any_self _ _ _

theorem fileExists_writeFileW_preserve (w : CP.World) (q c p : String)
    (h : CP.fileExists w p = true) :
    CP.fileExists (CP.writeFileW w q c) p = true := by
  unfold CP.fileExists CP.writeFileW
  exact setAssoc_any_preserve _ _ _ _ h

theorem fileExists_writeFileW_absent (w : CP.World) (q c p : String)
    (hne : p ≠ q) (h : CP.fileExists w p = false) :
    CP.fileExists (CP.writeFileW w q c) p = false := by
  unfold CP.fileExists CP.writeFileW
  exact setAssoc_any_absent _ _ _ _ hne h

theorem countWritesTo_write_self (p c : String) :
    CP.countWritesTo p [CP.Effect.writeFile p c] = 1 := by
  rw [countWritesTo_write, if_pos rfl]

theorem countWritesTo_write_ne (p q c : String) (h : ¬q = p) :
    CP.countWritesTo p [CP.Effect.writeFile q c] = 0 := by
  rw [countWritesTo_write, if_neg h]

theorem countWritesTo_spawn_write_self (p l pr c : String) :
    CP.countWritesTo p [CP.Effect.spawnAgent l pr, CP.Effect.writeFile p c] = 1 := by
  unfold CP.countWritesTo
  simp [List.filter]

theorem countWritesTo_spawn_write_ne (p l pr q c : String) (h : ¬q = p) :
    CP.countWritesTo p [CP.Effect.spawnAgent l pr, CP.Effect.writeFile q c] = 0 := by
  unfold CP.countWritesTo
  have hb : (q == p) = false := by simp [h]
  simp [List.filter, hb]

theorem ensureTierDir_files (tierDir : String) (acc : CP.World × List CP.Effect) :
    (CP.ensureTierDir tierDir acc).1.files = acc.1.files := by
  unfold CP.ensureTierDir
  split
  · rfl
  · rfl

theorem ensureTierDir_count (tierDir : String) (acc : CP.World × List CP.Effect)
    (p : String) :
    CP.countWritesTo p (CP.ensureTierDir tierDir acc).2 = CP.countWritesTo p acc.2 := by
  unfold CP.ensureTierDir
  split
  · rfl
  · rw [countWritesTo_append, countWritesTo_mkdir]
    omega

theorem ensureTierDir_writes (tierDir : String) (acc : CP.World × List CP.Effect)
    (p c : String) (h : CP.Effect.writeFile p c ∈ (CP.ensureTierDir tierDir acc).2) :
    CP.Effect.writeFile p c ∈ acc.2 := by
  unfold CP.ensureTierDir at h
  split at h
  · exact h
  · rcases List.mem_append.mp h with h1 | h2
    · exact h1
    · exact absurd (List.mem_singleton.mp h2) (by simp)

theorem fileExists_eq_of_files (w1 w2 : CP.World) (p : String)
    (h : w1.files = w2.files) : CP.fileExists w1 p = CP.fileExists w2 p := by
  unfold CP.fileExists
  rw [h]

theorem lookupFile_eq_of_files (w1 w2 : CP.World) (p : String)
    (h : w1.files = w2.files) : CP.lookupFile w1 p = CP.lookupFile w2 p := by
  unfold CP.lookupFile
  rw [h]

theorem writeTierReport_spec (env : CP.Env) (pm : List (String × String))
    (grp : String × List CP.ChecklistItem) (acc2 : CP.World × List CP.Effect) (p : String) :
    (CP.fileExists acc2.1 p = true →
      CP.fileExists (CP.writeTierReport env pm grp acc2).1 p = true
      ∧ CP.lookupFile (CP.writeTierReport env pm grp acc2).1 p = CP.lookupFile acc2.1 p
      ∧ CP.countWritesTo p (CP.writeTierReport env pm grp acc2).2
          = CP.countWritesTo p acc2.2)
    ∧ (CP.fileExists acc2.1 p = false →
      (CP.countWritesTo p (CP.writeTierReport env pm grp acc2).2 = CP.countWritesTo p acc2.2
        ∧ CP.fileExists (CP.writeTierReport env pm grp acc2).1 p = false
        ∧ CP.lookupFile (CP.writeTierReport env pm grp acc2).1 p = CP.lookupFile acc2.1 p)
      ∨ (CP.countWritesTo p (CP.writeTierReport env pm grp acc2).2
            = CP.countWritesTo p acc2.2 + 1
        ∧ CP.fileExists (CP.writeTierReport env pm grp acc2).1 p = true))
    ∧ (∀ c, CP.Effect.writeFile p c ∈ (CP.writeTierReport env pm grp acc2).2 →
        CP.Effect.writeFile p c ∈ acc2.2 ∨ p = CP.tierReportPath grp.1) := by
  unfold CP.writeTierReport
  by_cases hex : CP.fileExists acc2.1 (CP.tierReportPath grp.1) = true
  · rw [if_pos hex]
    exact ⟨fun h => ⟨h, rfl, rfl⟩, fun h => Or.inl ⟨rfl, h, rfl⟩, fun c hc => Or.inl hc⟩
  · rw [if_neg hex]
    have hexf : CP.fileExists acc2.1 (CP.tierReportPath grp.1) = false := by
      simpa using hex
    by_cases hp : p = CP.tierReportPath grp.1
    · refine ⟨fun h => absurd h (by rw [hp, hexf]; simp), fun _ => ?_, fun c hc => Or.inr hp⟩
      dsimp only
      cases env.tierReportPromptTemplate with
      | none =>
        refine Or.inr ⟨?_, by rw [hp]; exact fileExists_writeFileW_self _ _ _⟩
        rw [countWritesTo_append, hp, countWritesTo_write_self]
      | some tpl =>
        rcases hrun : CP.runAgentFor env ("tier-report-" ++ CP.getSanitizedTierName grp.1)
          with ⟨o, cnt⟩
        cases o with
        | ok rawOutput =>
          refine Or.inr ⟨?_, by rw [hp]; exact fileExists_writeFileW_self _ _ _⟩
          rw [countWritesTo_append, hp, countWritesTo_spawn_write_self]
        | err e =>
          refine Or.inl ⟨?_, by rw [hp]; exact hexf, rfl⟩
          rw [countWritesTo_append, countWritesTo_spawn]
          omega
    · have hq : ¬(CP.tierReportPath grp.1 = p) := fun he => hp he.symm
      have hwf1 : ∀ c2, CP.fileExists (CP.writeFileW acc2.1 (CP.tierReportPath grp.1) c2) p
          = CP.fileExists acc2.1 p := by
        intro c2
        by_cases hfe : CP.fileExists acc2.1 p = true
        · rw [hfe, fileExists_writeFileW_preserve _ _ _ _ hfe]
        · have hfe2 : CP.fileExists acc2.1 p = false := by simpa using hfe
          rw [hfe2, fileExists_writeFileW_absent _ _ _ _ hp hfe2]
      have hwl1 : ∀ c2, CP.lookupFile (CP.writeFileW acc2.1 (CP.tierReportPath grp.1) c2) p
          = CP.lookupFile acc2.1 p := fun c2 => lookupFile_writeFileW_ne _ _ _ _ hp
      dsimp only
      cases env.tierReportPromptTemplate with
      | none =>
        refine ⟨fun h => ⟨by rw [hwf1]; exact h, hwl1 _, ?_⟩,
          fun h => Or.inl ⟨?_, by rw [hwf1]; exact h, hwl1 _⟩, fun c hc => ?_⟩
        · rw [countWritesTo_append, countWritesTo_write_ne _ _ _ hq]
          omega
        · rw [countWritesTo_append, countWritesTo_write_ne _ _ _ hq]
          omega
        · rcases List.mem_append.mp hc with h1 | h2
          · exact Or.inl h1
          · have h3 := List.mem_singleton.mp h2
            injection h3 with h4 h5
            exact absurd h4 hp
      | some tpl =>
        rcases hrun : CP.runAgentFor env ("tier-report-" ++ CP.getSanitizedTierName grp.1)
          with ⟨o, cnt⟩
        cases o with
        | ok rawOutput =>
          refine ⟨fun h => ⟨by rw [hwf1]; exact h, hwl1 _, ?_⟩,
            fun h => Or.inl ⟨?_, by rw [hwf1]; exact h, hwl1 _⟩, fun c hc => ?_⟩
          · rw [countWritesTo_append, countWritesTo_spawn_write_ne _ _ _ _ _ hq]
            omega
          · rw [countWritesTo_append, countWritesTo_spawn_write_ne _ _ _ _ _ hq]
            omega
          · rcases List.mem_append.mp hc with h1 | h2
            · exact Or.inl h1
            · rcases List.mem_cons.mp h2 with h3 | h4
              · exact absurd h3 (by simp)
              · have h5 := List.mem_singleton.mp h4
                injection h5 with h6 h7
                exact absurd h6 hp
        | err e =>
          refine ⟨fun h => ⟨h, rfl, ?_⟩, fun h => Or.inl ⟨?_, h, rfl⟩, fun c hc => ?_⟩
          · rw [countWritesTo_append, countWritesTo_spawn]
            omega
          · rw [countWritesTo_append, countWritesTo_spawn]
            omega
          · rcases List.mem_append.mp hc with h1 | h2
            · exact Or.inl h1
            · exact absurd (List.mem_singleton.mp h2) (by simp)

theorem ptg_spec (env : CP.Env) (pm : List (String × String))
    (acc : CP.World × List CP.Effect) (grp : String × List CP.ChecklistItem) (p : String) :
    (CP.fileExists acc.1 p = true →
      CP.fileExists (CP.processTierGroup env pm acc grp).1 p = true
      ∧ CP.lookupFile (CP.processTierGroup env pm acc grp).1 p = CP.lookupFile acc.1 p
      ∧ CP.countWritesTo p (CP.processTierGroup env pm acc grp).2 = CP.countWritesTo p acc.2)
    ∧ (CP.fileExists acc.1 p = false →
      (CP.countWritesTo p (CP.processTierGroup env pm acc grp).2 = CP.countWritesTo p acc.2
        ∧ CP.fileExists (CP.processTierGroup env pm acc grp).1 p = false
        ∧ CP.lookupFile (CP.processTierGroup env pm acc grp).1 p = CP.lookupFile acc.1 p)
      ∨ (CP.countWritesTo p (CP.processTierGroup env pm acc grp).2
            = CP.countWritesTo p acc.2 + 1
        ∧ CP.fileExists (CP.processTierGroup env pm acc grp).1 p = true))
    ∧ (∀ c, CP.Effect.writeFile p c ∈ (CP.processTierGroup env pm acc grp).2 →
        CP.Effect.writeFile p c ∈ acc.2
        ∨ (grp.2.all (fun item => CP.jsIncludes item.status "✅") = true
            ∧ p = CP.tierReportPath grp.1)) := by
  unfold CP.processTierGroup
  by_cases hcomp : (grp.2.all (fun item => CP.jsIncludes item.status "✅")) = true
  · rw [if_neg (not_not_intro hcomp)]
    have hfiles := ensureTierDir_files (CP.runsDir ++ "/" ++ CP.getSanitizedTierName grp.1) acc
    have hcount := ensureTierDir_count (CP.runsDir ++ "/" ++ CP.getSanitizedTierName grp.1) acc p
    have hw := writeTierReport_spec env pm grp
      (CP.ensureTierDir (CP.runsDir ++ "/" ++ CP.getSanitizedTierName grp.1) acc) p
    have hfe := fileExists_eq_of_files
      (CP.ensureTierDir (CP.runsDir ++ "/" ++ CP.getSanitizedTierName grp.1) acc).1 acc.1 p hfiles
    have hlk := lookupFile_eq_of_files
      (CP.ensureTierDir (CP.runsDir ++ "/" ++ CP.getSanitizedTierName grp.1) acc).1 acc.1 p hfiles
    refine ⟨?_, ?_, ?_⟩
    · intro h
      have h2 := hw.1 (by rw [hfe]; exact h)
      exact ⟨h2.1, by rw [h2.2.1, hlk], by rw [h2.2.2, hcount]⟩
    · intro h
      rcases hw.2.1 (by rw [hfe]; exact h) with ⟨hc, hf, hl⟩ | ⟨hc, hf⟩
      · exact Or.inl ⟨by rw [hc, hcount], hf, by rw [hl, hlk]⟩
      · exact Or.inr ⟨by rw [hc, hcount], hf⟩
    · intro c hcmem
      rcases hw.2.2 c hcmem with h1 | h2
      · exact Or.inl (ensureTierDir_writes _ _ _ _ h1)
      · exact Or.inr ⟨hcomp, h2⟩
  · rw [if_pos hcomp]
    exact ⟨fun h => ⟨h, rfl, rfl⟩, fun h => Or.inl ⟨rfl, h, rfl⟩, fun c hc => Or.inl hc⟩

theorem ptg_fold_spec (env : CP.Env) (pm : List (String × String)) :
    ∀ (gs : List (String × List CP.ChecklistItem)) (acc : CP.World × List CP.Effect)
      (p : String),
    (CP.fileExists acc.1 p = true →
      CP.fileExists (gs.foldl (CP.processTierGroup env pm) acc).1 p = true
      ∧ CP.lookupFile (gs.foldl (CP.processTierGroup env pm) acc).1 p
          = CP.lookupFile acc.1 p
      ∧ CP.countWritesTo p (gs.foldl (CP.processTierGroup env pm) acc).2
          = CP.countWritesTo p acc.2)
    ∧ (CP.fileExists acc.1 p = false →
      (CP.countWritesTo p (gs.foldl (CP.processTierGroup env pm) acc).2
          = CP.countWritesTo p acc.2
        ∧ CP.fileExists (gs.foldl (CP.processTierGroup env pm) acc).1 p = false
        ∧ CP.lookupFile (gs.foldl (CP.processTierGroup env pm) acc).1 p
            = CP.lookupFile acc.1 p)
      ∨ (CP.countWritesTo p (gs.foldl (CP.processTierGroup env pm) acc).2
            = CP.countWritesTo p acc.2 + 1
        ∧ CP.fileExists (gs.foldl (CP.processTierGroup env pm) acc).1 p = true))
    ∧ (∀ c, CP.Effect.writeFile p c ∈ (gs.foldl (CP.processTierGroup env pm) acc).2 →
        CP.Effect.writeFile p c ∈ acc.2
        ∨ ∃ tierName tierItems, (tierName, tierItems) ∈ gs
            ∧ tierItems.all (fun item => CP.jsIncludes item.status "✅") = true
            ∧ p = CP.tierReportPath tierName) := by
  intro gs
  induction gs with
  | nil =>
    intro acc p
    exact ⟨fun h => ⟨h, rfl, rfl⟩, fun h => Or.inl ⟨rfl, h, rfl⟩, fun c hc => Or.inl hc⟩
  | cons g gs2 ih =>
    intro acc p
    rw [List.foldl_cons]
    have hstep := ptg_spec env pm acc g p
    have hrest := ih (CP.processTierGroup env pm acc g) p
    refine ⟨?_, ?_, ?_⟩
    · intro h
      obtain ⟨he1, hl1, hc1⟩ := hstep.1 h
      obtain ⟨he2, hl2, hc2⟩ := hrest.1 he1
      exact ⟨he2, by rw [hl2, hl1], by rw [hc2, hc1]⟩
    · intro h
      rcases hstep.2.1 h with ⟨hc1, hf1, hl1⟩ | ⟨hc1, hf1⟩
      · rcases hrest.2.1 hf1 with ⟨hc2, hf2, hl2⟩ | ⟨hc2, hf2⟩
        · exact Or.inl ⟨by rw [hc2, hc1], hf2, by rw [hl2, hl1]⟩
        · exact Or.inr ⟨by rw [hc2, hc1], hf2⟩
      · obtain ⟨he2, hl2, hc2⟩ := hrest.1 hf1
        exact Or.inr ⟨by rw [hc2, hc1], he2⟩
    · intro c hc
      rcases hrest.2.2 c hc with h1 | ⟨t, its, hmem, hall, hpath⟩
      · rcases hstep.2.2 c h1 with h2 | ⟨hall, hpath⟩
        · exact Or.inl h2
        · exact Or.inr ⟨g.1, g.2, List.mem_cons_self g gs2, hall, hpath⟩
      · exact Or.inr ⟨t, its, List.mem_cons_of_mem g hmem, hall, hpath⟩

theorem gtr_pass_spec (env : CP.Env) (items : List CP.ChecklistItem) (w : CP.World)
    (p : String) :
    (CP.fileExists w p = true →
      CP.fileExists (CP.generateTierReportsIfNeeded env items w).1 p = true
      ∧ CP.lookupFile (CP.generateTierReportsIfNeeded env items w).1 p = CP.lookupFile w p
      ∧ CP.countWritesTo p (CP.generateTierReportsIfNeeded env items w).2 = 0)
    ∧ (CP.fileExists w p = false →
      (CP.countWritesTo p (CP.generateTierReportsIfNeeded env items w).2 = 0
        ∧ CP.fileExists (CP.generateTierReportsIfNeeded env items w).1 p = false
        ∧ CP.lookupFile (CP.generateTierReportsIfNeeded env items w).1 p = CP.lookupFile w p)
      ∨ (CP.countWritesTo p (CP.generateTierReportsIfNeeded env items w).2 = 1
        ∧ CP.fileExists (CP.generateTierReportsIfNeeded env items w).1 p = true))
    ∧ (∀ c, CP.Effect.writeFile p c ∈ (CP.generateTierReportsIfNeeded env items w).2 →
        ∃ tierName tierItems,
          (tierName, tierItems) ∈ CP.tierGroups items (CP.buildPrefixTierMap items)
          ∧ tierItems.all (fun item => CP.jsIncludes item.status "✅") = true
          ∧ p = CP.tierReportPath tierName) := by
  have h := ptg_fold_spec env (CP.buildPrefixTierMap items)
    (CP.tierGroups items (CP.buildPrefixTierMap items)) (w, []) p
  unfold CP.generateTierReportsIfNeeded
  refine ⟨?_, ?_, ?_⟩
  · intro hex
    obtain ⟨h1, h2, h3⟩ := h.1 hex
    exact ⟨h1, h2, by rw [h3]; rfl⟩
  · intro hex
    rcases h.2.1 hex with ⟨h1, h2, h3⟩ | ⟨h1, h2⟩
    · exact Or.inl ⟨by rw [h1]; rfl, h2, h3⟩
    · exact Or.inr ⟨by rw [h1]; rfl, h2⟩
  · intro c hc
    rcases h.2.2 c hc with h1 | h2
    · exact absurd h1 (List.not_mem_nil _)
    · exact h2

theorem passes_spec (passes : List (CP.Env × List CP.ChecklistItem)) :
    ∀ (w : CP.World) (p : String),
    (CP.fileExists w p = true →
      CP.countWritesTo p (CP.runTierReportPasses passes w).2 = 0
      ∧ CP.fileExists (CP.runTierReportPasses passes w).1 p = true
      ∧ CP.lookupFile (CP.runTierReportPasses passes w).1 p = CP.lookupFile w p)
    ∧ CP.countWritesTo p (CP.runTierReportPasses passes w).2 ≤ 1 := by
  induction passes with
  | nil =>
    intro w p
    exact ⟨fun h => ⟨rfl, h, rfl⟩, by rw [show CP.runTierReportPasses [] w = (w, []) from rfl]; simp [countWritesTo_nil]⟩
  | cons pr rest ih =>
    intro w p
    have hpass := gtr_pass_spec pr.1 pr.2 w p
    have hsplit : CP.runTierReportPasses (pr :: rest) w
        = ((CP.runTierReportPasses rest (CP.generateTierReportsIfNeeded pr.1 pr.2 w).1).1,
           (CP.generateTierReportsIfNeeded pr.1 pr.2 w).2
             ++ (CP.runTierReportPasses rest (CP.generateTierReportsIfNeeded pr.1 pr.2 w).1).2) := by
      rw [show CP.runTierReportPasses (pr :: rest) w
          = ((CP.runTierReportPasses rest (CP.generateTierReportsIfNeeded pr.1 pr.2 w).1).1,
             (CP.generateTierReportsIfNeeded pr.1 pr.2 w).2
               ++ (CP.runTierReportPasses rest (CP.generateTierReportsIfNeeded pr.1 pr.2 w).1).2)
        from by rcases pr with ⟨e2, its2⟩; rfl]
    have hrest := ih (CP.generateTierReportsIfNeeded pr.1 pr.2 w).1 p
    refine ⟨?_, ?_⟩
    · intro hex
      obtain ⟨h1, h2, h3⟩ := hpass.1 hex
      obtain ⟨h4, h5, h6⟩ := hrest.1 h1
      rw [hsplit]
      refine ⟨?_, h5, by rw [h6, h2]⟩
      rw [countWritesTo_append, h3, h4]
    · rw [hsplit]
      rw [countWritesTo_append]
      by_cases hex : CP.fileExists w p = true
      · obtain ⟨he1, _, hc1⟩ := hpass.1 hex
        obtain ⟨hc2, _, _⟩ := hrest.1 he1
        omega
      · have hex2 : CP.fileExists w p = false := by simpa using hex
        rcases hpass.2.1 hex2 with ⟨hc1, hf1, _⟩ | ⟨hc1, hf1⟩
        · have := hrest.2
          omega
        · obtain ⟨hc2, _, _⟩ := hrest.1 hf1
          omega

/-- C9: across arbitrarily many orchestrator passes, the report artifact of
any path is written at most once; once the artifact exists, no later pass
writes or overwrites it (its content is preserved); and every report write of
a single pass belongs to a tier group all of whose items are
completion-marked — a tier with a non-completed item never gets a report. -/
theorem c9_tier_report_once (passes : List (CP.Env × List CP.ChecklistItem))
    (w : CP.World) (p : String) :
    CP.countWritesTo p (CP.runTierReportPasses passes w).2 ≤ 1
    ∧ (CP.fileExists w p = true →
        CP.countWritesTo p (CP.runTierReportPasses passes w).2 = 0
        ∧ CP.lookupFile (CP.runTierReportPasses passes w).1 p = CP.lookupFile w p)
    ∧ (∀ env items c,
        CP.Effect.writeFile p c ∈ (CP.generateTierReportsIfNeeded env items w).2 →
        ∃ tierName tierItems,
          (tierName, tierItems) ∈ CP.tierGroups items (CP.buildPrefixTierMap items)
          ∧ tierItems.all (fun item => CP.jsIncludes item.status "✅") = true
          ∧ p = CP.tierReportPath tierName) := by
  refine ⟨(passes_spec passes w p).2, ?_, ?_⟩
  · intro hex
    obtain ⟨h1, h2, h3⟩ := (passes_spec passes w p).1 hex
    exact ⟨h1, h3⟩
  · intro env items c hc
    exact (gtr_pass_spec env items w p).2.2 c hc

/-- Witness for C9: with the report artifact already present, two further
passes over the same completed tier write it zero times. -/
theorem c9_tier_report_once_witness :
    CP.countWritesTo "runs/tier_1_a/tier_1_a-FINAL-REPORT.md"
      (CP.runTierReportPasses
        [({ mode := .finite, dryRun := false, batchSize := 5, agentMaxRetries := 3,
            missionBrief := "", agentSystemPrompt := "", tierReportPromptTemplate := none,
            attemptOracle := fun _ _ => (false, 0, "done"), now := 0 },
          [⟨"T-1", "a", "P0", "High", "✅ Completed", "Tier 1: A", ""⟩]),
         ({ mode := .finite, dryRun := false, batchSize := 5, agentMaxRetries := 3,
            missionBrief := "", agentSystemPrompt := "", tierReportPromptTemplate := none,
            attemptOracle := fun _ _ => (false, 0, "done"), now := 0 },
          [⟨"T-1", "a", "P0", "High", "✅ Completed", "Tier 1: A", ""⟩])]
        ⟨"", [("runs/tier_1_a/tier_1_a-FINAL-REPORT.md", "existing report")], []⟩).2 = 0 := by
  exact ((c9_tier_report_once _ _ _).2.1 (by decide)).1


theorem hasSub_append_left (pat a b : List Char) (h : CP.hasSub pat b = true) :
    CP.hasSub pat (a ++ b) = true := by
  induction a with
  | nil => simpa using h
  | cons x a2 ih => simp only [List.cons_append, CP.hasSub, List.append_eq, ih, Bool.or_true]

theorem hasSub_self_append (pat b : List Char) : CP.hasSub pat (pat ++ b) = true := by
  simpa using hasSub_parts pat [] b

/-- C10: the completion-promise convention is never verified.  Whenever a
dispatched item's agent process exits with code zero and its transcript
carries no rate-limit or permission phrasing, the dispatcher spawns a task
session whose prompt demands the ITEM_COMPLETE promise, writes the item's
status cell to "✅ Completed" in the checklist, and records the completion
effect — even under the hypothesis that the transcript does NOT contain
ITEM_COMPLETE. -/
theorem c10_completion_promise_unverified (env : CP.Env)
    (pm : List (String × String)) (acc : CP.World × List CP.Effect)
    (item : CP.ChecklistItem) (out : String)
    (hdry : env.dryRun = false)
    (horacle : env.attemptOracle ("task-" ++ item.id) 1 = (false, 0, out))
    (hrl : CP.isRateLimitMessage out = false)
    (hperm : CP.isPermissionMessage out = false)
    (hnp : CP.jsIncludes out CP.COMPLETION_PROMISE = false) :
    (∃ p, CP.Effect.spawnAgent ("task-" ++ item.id) p ∈ (CP.dispatchItem env pm acc item).2
        ∧ CP.jsIncludes p CP.COMPLETION_PROMISE = true)
    ∧ CP.Effect.updateStatus item.id "✅ Completed" ∈ (CP.dispatchItem env pm acc item).2
    ∧ (CP.dispatchItem env pm acc item).1.checklist
        = CP.updateChecklistItemStatus acc.1.checklist item.id "✅ Completed" := by
  have hrun : CP.runAgentFor env ("task-" ++ item.id) = (.ok out, 1) := by
    unfold CP.runAgentFor CP.runAgentWithPrompt
    obtain ⟨r, hr⟩ : ∃ r, max 1 env.agentMaxRetries = r + 1 :=
      ⟨max 1 env.agentMaxRetries - 1, by omega⟩
    rw [hr]
    simp only [CP.runAgentAux, horacle]
    simp [CP.executeAgentAttempt, hrl, hperm]
  unfold CP.dispatchItem
  dsimp only []
  simp only [hdry, Bool.false_eq_true, if_false, hrun]
  refine ⟨?_, ?_, ?_⟩
  · refine ⟨_, List.mem_append_right _ (List.mem_cons_self _ _), ?_⟩
    unfold CP.jsIncludes
    simp only [String.data_append]
    rw [List.append_assoc]
    exact hasSub_parts _ _ _
  · exact List.mem_append_right _ (by simp)
  · trivial

theorem c10_completion_promise_unverified_witness :
    CP.Effect.updateStatus "T-1" "✅ Completed"
      ∈ (CP.dispatchItem CP.promiseFreeEnv []
          (⟨"| T-1 | a | P0 | Low | ☐ |", [], []⟩, [])
          ⟨"T-1", "a", "P0", "Low", "☐", "", ""⟩).2 :=
  (c10_completion_promise_unverified CP.promiseFreeEnv []
    (⟨"| T-1 | a | P0 | Low | ☐ |", [], []⟩, [])
    ⟨"T-1", "a", "P0", "Low", "☐", "", ""⟩ "All done."
    rfl rfl (by decide) (by decide) (by decide)).2.1

set_option maxRecDepth 1000000 in
/-- C3: REFUTED as stated — a dry run is not side-effect free.  In an
infinite-mode dry-run invocation whose backlog is short of the batch size,
processChecklist still spawns the backlog-synthesis agent session and
rewrites the checklist document (rows appended) before the dry-run check is
consulted; only the per-item dispatch is suppressed.  The dry-run guard sits
after synthesis and tier-report generation in the function body. -/
theorem c3_dry_run_side_effects :
    CP.runHasSpawnLabel (CP.mainRun CP.infiniteDryRunEnv ⟨CP.oneItemChecklist, [], []⟩)
        "infinite-backlog" = true
    ∧ CP.runChecklist (CP.mainRun CP.infiniteDryRunEnv ⟨CP.oneItemChecklist, [], []⟩)
        ≠ some CP.oneItemChecklist
    ∧ CP.runHasTaskSpawn (CP.mainRun CP.infiniteDryRunEnv ⟨CP.oneItemChecklist, [], []⟩)
        = false := by
  exact ⟨by decide, by decide, by decide⟩

set_option maxRecDepth 1000000 in
/-- C5: REFUTED as stated — there is no top-level batch loop.  One
processChecklist invocation (the whole require.main entry point) dispatches
a single batch and returns: on a finite-mode six-item backlog with batch
size five and always-succeeding agents, the run performs exactly five task
spawns and ends with one item still remaining. -/
theorem c5_single_batch_only :
    CP.runSpawnCount (CP.mainRun CP.finiteBatchEnv ⟨CP.sixItemChecklist, [], []⟩) = some 5
    ∧ CP.runRemainingCount (CP.mainRun CP.finiteBatchEnv ⟨CP.sixItemChecklist, [], []⟩)
        = some 1 := by
  exact ⟨by decide, by decide⟩
